import Mathlib

/-!
# Skydive: sync message decoding and the ElasticSearch flow storage

A shallow embedding of

* `topology/graph/message.go` : `UnmarshalWSMessage`,
* `flow/storage/elasticsearch/elasticsearch.go` : `StoreFlows`,
  `requestFromQuery`, `sendRequest`, `SearchMetrics`, `SearchFlows`,

together with the properties of these functions that the specification
states.  Go values of type `interface{}` are a tagged tree (`Value`), Go
errors are their message, a Go panic is an explicit outcome, `int64` is `Int`
with explicit wrap-around, and the ElasticSearch client is a record of
transition functions over an abstract client state.
-/

set_option autoImplicit false

namespace Skydive

/-! ## Go values -/

/-- A Go `error` value, represented by its message; `nil` is `none` where an
`error` is returned next to a result. -/
abbrev Error := String

/-- Values of Go type `interface{}` as they occur in decoded JSON and in the
requests built for ElasticSearch.  `number` is a `json.Number` (the literal
text of a JSON number, produced by a decoder with `UseNumber`), `float` is a
`float64` given by its IEEE-754 bit pattern (produced by `json.Unmarshal`),
`int` is an `int` or `int64`, `obj` is a `map[string]interface{}` given by its
entries (the first entry of a key is its binding). -/
inductive Value where
  | null
  | bool (b : Bool)
  | number (n : String)
  | float (bits : Nat)
  | int (i : Int)
  | str (s : String)
  | arr (l : List Value)
  | obj (m : List (String × Value))
deriving Inhabited

/-- The result of running Go code that may panic. -/
inductive Outcome (α : Type) where
  | ret (a : α)
  | panicked (reason : String)

/-- The binding of key `k` in a Go map given by its entries. -/
def mapGet {β : Type} (m : List (String × β)) (k : String) : Option β :=
  match m with
  | [] => none
  | (k', v) :: rest => if k' = k then some v else mapGet rest k

/-- The Go assignment `m[k] = v` on a map given by its entries: the binding of
`k` is replaced where it stands, a new key is added at the end. -/
def mapSet {β : Type} (m : List (String × β)) (k : String) (v : β) : List (String × β) :=
  match m with
  | [] => [(k, v)]
  | (k', v') :: rest => if k' = k then (k, v) :: rest else (k', v') :: mapSet rest k v

/-- The keys of a Go map given by its entries. -/
def mapKeys {β : Type} (m : List (String × β)) : List String := m.map Prod.fst

/-- Bounds of `int64`. -/
def minInt64 : Int := -9223372036854775808

/-- Upper bound of `int64`. -/
def maxInt64 : Int := 9223372036854775807

/-- Membership in the range of `int64`. -/
def isInt64 (i : Int) : Prop := minInt64 ≤ i ∧ i ≤ maxInt64

instance (i : Int) : Decidable (isInt64 i) := by
  unfold isInt64; exact inferInstance

/-- Reduction of an integer to `int64` (two's complement wrap-around). -/
def wrapInt64 (i : Int) : Int := (i + 9223372036854775808) % 18446744073709551616 - 9223372036854775808

/-- The Go subtraction `a - b` of two `int64`. -/
def subInt64 (a b : Int) : Int := wrapInt64 (a - b)

/-- The Go addition `a + b` of two `int64`. -/
def addInt64 (a b : Int) : Int := wrapInt64 (a + b)

/-- The value of a decimal digit. -/
def digitVal (c : Char) : Option Nat :=
  if 48 ≤ c.toNat ∧ c.toNat ≤ 57 then some (c.toNat - 48) else none

/-- The unsigned decimal number written by a list of digits, starting from the
accumulator `acc`; `none` when a character is not a digit. -/
def parseDigits : List Char → Nat → Option Nat
  | [], acc => some acc
  | c :: cs, acc =>
    match digitVal c with
    | none => none
    | some d => parseDigits cs (acc * 10 + d)

/-- The part of `strconv.ParseInt(s, 10, 64)` after the sign: at least one
decimal digit, the signed value being in the range of `int64`. -/
def parseMagnitude (neg : Bool) (cs : List Char) : Except Error Int :=
  match cs with
  | [] => .error "invalid syntax"
  | c :: cs' =>
    match parseDigits (c :: cs') 0 with
    | none => .error "invalid syntax"
    | some un =>
      if neg then
        if un ≤ 9223372036854775808 then .ok (-(un : Int)) else .error "value out of range"
      else
        if un < 9223372036854775808 then .ok (un : Int) else .error "value out of range"

/-- `json.Number.Int64`, that is `strconv.ParseInt(s, 10, 64)`: an optional
sign followed by at least one decimal digit, the value being in the range of
`int64`. -/
def NumberInt64 (n : String) : Except Error Int :=
  match n.data with
  | [] => .error "invalid syntax"
  | c :: cs =>
    if c = '+' then parseMagnitude false cs
    else if c = '-' then parseMagnitude true cs
    else parseMagnitude false (c :: cs)

/-! ## `topology/graph/message.go` -/

/-- The nine message types declared by `message.go`. -/
def SyncRequestMsgType : String := "SyncRequest"
def SyncReplyMsgType : String := "SyncReply"
def HostGraphDeletedMsgType : String := "HostGraphDeleted"
def NodeUpdatedMsgType : String := "NodeUpdated"
def NodeDeletedMsgType : String := "NodeDeleted"
def NodeAddedMsgType : String := "NodeAdded"
def EdgeUpdatedMsgType : String := "EdgeUpdated"
def EdgeDeletedMsgType : String := "EdgeDeleted"
def EdgeAddedMsgType : String := "EdgeAdded"

/-- The fields of `shttp.WSMessage` that `UnmarshalWSMessage` reads: the
message type `Type`, here `Type_`, and the raw JSON payload `Obj`, a pointer
(`none` is the nil pointer). -/
structure WSMessage where
  Type_ : String
  Obj : Option String
deriving DecidableEq

/-- A `common.TimeSlice`: the first and last instant of a time window. -/
structure TimeSlice where
  Start : Int
  Last : Int
deriving DecidableEq

/-- Modelled from the spec: `common.NewTimeSlice` is not part of the sources;
a time slice is a single instant or an interval `[from, to]`, so the
constructor records its two arguments as the bounds. -/
def NewTimeSlice (s l : Int) : TimeSlice := { Start := s, Last := l }

/-- A `GraphContext`: an optional time slice (a nil pointer in the zero
context). -/
structure GraphContext where
  TimeSlice : Option TimeSlice
deriving DecidableEq

/-- The second result of `UnmarshalWSMessage`, an `interface{}` holding the
original message, a graph context, the decoded JSON value, a node or an
edge. -/
inductive Payload (Node Edge : Type) where
  | message (m : WSMessage)
  | context (c : GraphContext)
  | object (v : Value)
  | node (n : Node)
  | edge (e : Edge)

/-- The functions `UnmarshalWSMessage` calls that are defined outside
`message.go`: `common.JsonDecode` (a JSON decoder with `UseNumber`),
`Node.Decode` and `Edge.Decode`. -/
structure Env (Node Edge : Type) where
  JsonDecode : String → Except Error Value
  NodeDecode : Value → Except Error Node
  EdgeDecode : Value → Except Error Edge

/-- The function `UnmarshalWSMessage` of `message.go`. -/
def UnmarshalWSMessage {Node Edge : Type} (env : Env Node Edge) (msg : WSMessage) :
    Outcome (String × Payload Node Edge × Option Error) :=
  match msg.Obj with
  | none => .panicked "invalid memory address or nil pointer dereference"
  | some raw =>
    match env.JsonDecode raw with
    | .error err => .ret ("", .message msg, some err)
    | .ok obj =>
      if msg.Type_ = SyncRequestMsgType then
        match obj with
        | .obj m =>
          match mapGet m "Time" with
          | some (.number v) =>
            match NumberInt64 v with
            | .error err => .ret ("", .message msg, some err)
            | .ok i =>
              .ret (msg.Type_, .context { TimeSlice := some (NewTimeSlice i i) }, none)
          | _ => .ret (msg.Type_, .context { TimeSlice := none }, none)
        | _ => .panicked "interface conversion: interface is not map[string]interface {}"
      else if msg.Type_ = HostGraphDeletedMsgType then
        .ret (msg.Type_, .object obj, none)
      else if msg.Type_ = NodeUpdatedMsgType ∨ msg.Type_ = NodeDeletedMsgType
          ∨ msg.Type_ = NodeAddedMsgType then
        match env.NodeDecode obj with
        | .error err => .ret ("", .message msg, some err)
        | .ok node => .ret (msg.Type_, .node node, none)
      else if msg.Type_ = EdgeUpdatedMsgType ∨ msg.Type_ = EdgeDeletedMsgType
          ∨ msg.Type_ = EdgeAddedMsgType then
        match env.EdgeDecode obj with
        | .error err => .ret ("", .message msg, some err)
        | .ok edge => .ret (msg.Type_, .edge edge, none)
      else
        .ret ("", .message msg, none)


/-- The payload `obj`, decoded from JSON, is well formed for the message type
`t`, one of the eight types `UnmarshalWSMessage` has a case for: an object
whose `Time`, when it is a number, is an `int64`, for `SyncRequest`; any value
for `HostGraphDeleted`; a value `Node.Decode` accepts for the node messages and
a value `Edge.Decode` accepts for the edge messages. -/
def wellFormedPayload {Node Edge : Type} (env : Env Node Edge) (t : String) (obj : Value) :
    Prop :=
  (t = SyncRequestMsgType ∧
      ∃ m, obj = .obj m ∧ ∀ v, mapGet m "Time" = some (.number v) → ∃ i, NumberInt64 v = .ok i)
  ∨ t = HostGraphDeletedMsgType
  ∨ ((t = NodeUpdatedMsgType ∨ t = NodeDeletedMsgType ∨ t = NodeAddedMsgType) ∧
      ∃ n, env.NodeDecode obj = .ok n)
  ∨ ((t = EdgeUpdatedMsgType ∨ t = EdgeDeletedMsgType ∨ t = EdgeAddedMsgType) ∧
      ∃ e, env.EdgeDecode obj = .ok e)

/-- The message is malformed in one of the three ways `UnmarshalWSMessage`
reports: its payload `raw` is not valid JSON; it is a node or edge message
whose decoded payload `Node.Decode` or `Edge.Decode` rejects; it is a
`SyncRequest` whose payload is an object with a number `Time` that is not an
`int64`.  The error `err` is the one of the failing step. -/
def malformed {Node Edge : Type} (env : Env Node Edge) (msg : WSMessage) (raw : String)
    (err : Error) : Prop :=
  env.JsonDecode raw = .error err
  ∨ (∃ obj, env.JsonDecode raw = .ok obj ∧
      (msg.Type_ = NodeUpdatedMsgType ∨ msg.Type_ = NodeDeletedMsgType
        ∨ msg.Type_ = NodeAddedMsgType) ∧ env.NodeDecode obj = .error err)
  ∨ (∃ obj, env.JsonDecode raw = .ok obj ∧
      (msg.Type_ = EdgeUpdatedMsgType ∨ msg.Type_ = EdgeDeletedMsgType
        ∨ msg.Type_ = EdgeAddedMsgType) ∧ env.EdgeDecode obj = .error err)
  ∨ (∃ m v, env.JsonDecode raw = .ok (.obj m) ∧ msg.Type_ = SyncRequestMsgType ∧
      mapGet m "Time" = some (.number v) ∧ NumberInt64 v = .error err)

/-! ## `flow/storage/elasticsearch/elasticsearch.go` -/

/-- A `filters.Range`: the bounds of a pagination window, both `int64`. -/
structure Range where
  From : Int
  To : Int
deriving DecidableEq

/-- The fields of `filters.SearchQuery` read by the storage; `Filter` and
`PaginationRange` are pointers (`none` is nil), `Sort_` is the field `Sort`. -/
structure SearchQuery (Flt : Type) where
  Filter : Option Flt
  PaginationRange : Option Range
  Sort_ : Bool
  SortBy : String
  SortOrder : String
  Dedup : Bool
  DedupBy : String

/-- A `flow.FlowMetric`. -/
structure FlowMetric where
  ABPackets : Int
  ABBytes : Int
  BAPackets : Int
  BABytes : Int
deriving DecidableEq

/-- A `common.TimedMetric`: a metric with the first and last instant of the
window it was measured over. -/
structure TimedMetric where
  Start : Int
  Last : Int
  Metric : FlowMetric
deriving DecidableEq

/-- The fields of an `elastigo.Hit` read by the storage: the id of the parent
document and the raw JSON source, a pointer (`none` is nil). -/
structure Hit where
  Parent : String
  Source : Option String
deriving DecidableEq

/-- An `elastigo.SearchResult`: `Hits` is the list `out.Hits.Hits`, and
`out.Hits.Len()` is its length. -/
structure SearchResult where
  Hits : List Hit

/-- The empty `elastigo.SearchResult{}`. -/
def SearchResult.empty : SearchResult := { Hits := [] }

/-- The ElasticSearch client `esclient.ElasticSearchClient`, which is not part
of the sources, over an abstract client state `σ`: `Started` and
`FormatFilter` read, `Index`, `IndexChild` and `Search` talk to the backend and
move the client to a next state.  `FormatFilter` returns a
`map[string]interface{}` as a `Value`. -/
structure ElasticSearchClient (σ Flt Flow : Type) where
  Started : σ → Bool
  Index : σ → String → String → Flow → Option Error × σ
  IndexChild : σ → String → String → String → Value → Option Error × σ
  FormatFilter : Option Flt → String → Bool → Value
  Search : σ → String → String → (SearchResult × Option Error) × σ

/-- A call of a method of the client. -/
inductive Call (Flt Flow : Type) where
  | Started
  | Index (docType id : String) (doc : Flow)
  | IndexChild (docType parent id : String) (doc : Value)
  | FormatFilter (filter : Option Flt) (pfx : String) (escape : Bool)
  | Search (docType query : String)

/-- The state the storage runs in: the state of its client and the calls made
to the client so far, oldest first. -/
structure World (σ Flt Flow : Type) where
  state : σ
  calls : List (Call Flt Flow)

/-- Appends a call to the record of calls. -/
def World.record {σ Flt Flow : Type} (w : World σ Flt Flow) (c : Call Flt Flow) :
    World σ Flt Flow :=
  { w with calls := w.calls ++ [c] }

/-- The library functions the storage calls: `json.Marshal` of a request,
`json.Unmarshal` into a `map[string]interface{}` and into a `flow.Flow`,
`mapstructure.Decode` into a `flow.FlowMetric`, the Go conversion
`int64(f)` of a `float64` given by its bits, and `Flow.GetField`, the value of
a named field of a flow, used as the deduplication key. -/
structure Codec (Flow K : Type) where
  Marshal : Value → Except Error String
  Unmarshal : String → Except Error (List (String × Value))
  UnmarshalFlow : String → Except Error Flow
  MapstructureDecode : List (String × Value) → Except Error FlowMetric
  Float64ToInt64 : Nat → Int
  GetField : Flow → String → Except Error K

/-- The method `requestFromQuery`. -/
def requestFromQuery {Flt : Type} (fsq : SearchQuery Flt) :
    List (String × Value) × Option Error :=
  let request : List (String × Value) := [("size", .int 10000)]
  match fsq.PaginationRange with
  | some r =>
    if r.To < r.From then
      (request, some "Incorrect PaginationRange, To < From")
    else
      let request := mapSet request "from" (.int r.From)
      let request := mapSet request "size" (.int (subInt64 r.To r.From))
      (request, none)
  | none => (request, none)

/-- The method `sendRequest`. -/
def sendRequest {σ Flt Flow K : Type} (c : ElasticSearchClient σ Flt Flow) (k : Codec Flow K)
    (w : World σ Flt Flow) (docType : String) (request : List (String × Value)) :
    (SearchResult × Option Error) × World σ Flt Flow :=
  match k.Marshal (.obj request) with
  | .error err => ((SearchResult.empty, some err), w)
  | .ok q =>
    let r := c.Search w.state docType q
    (r.1, { state := r.2, calls := w.calls ++ [.Search docType q] })

/-- The body of the loop of `SearchMetrics` up to the update of the map: the
timed metric decoded from a hit. -/
def metricOfHit {Flow K : Type} (k : Codec Flow K) (d : Hit) :
    Outcome (Except Error TimedMetric) :=
  match d.Source with
  | none => .panicked "invalid memory address or nil pointer dereference"
  | some src =>
    match k.Unmarshal src with
    | .error err => .ret (.error err)
    | .ok obj =>
      match k.MapstructureDecode obj with
      | .error err => .ret (.error err)
      | .ok m =>
        match mapGet obj "Start" with
        | some (.float s) =>
          match mapGet obj "Last" with
          | some (.float l) =>
            .ret (.ok { Start := k.Float64ToInt64 s, Last := k.Float64ToInt64 l, Metric := m })
          | _ => .panicked "interface conversion: interface is not float64"
        | _ => .panicked "interface conversion: interface is not float64"

/-- The loop of `SearchMetrics` over the hits, from the map built so far. -/
def collectMetrics {Flow K : Type} (k : Codec Flow K) :
    List Hit → List (String × List TimedMetric) →
      Outcome (Option (List (String × List TimedMetric)) × Option Error)
  | [], metrics => .ret (some metrics, none)
  | d :: ds, metrics =>
    match metricOfHit k d with
    | .panicked r => .panicked r
    | .ret (.error err) => .ret (none, some err)
    | .ret (.ok tm) =>
      collectMetrics k ds (mapSet metrics d.Parent (((mapGet metrics d.Parent).getD []) ++ [tm]))

/-- The sort clause `SearchMetrics` and `SearchFlows` add to the request when
the query asks for a sorted result. -/
def withSort {Flt : Type} (fsq : SearchQuery Flt) (request : List (String × Value)) :
    List (String × Value) :=
  if fsq.Sort_ then
    mapSet request "sort" (.obj [(fsq.SortBy, .obj [("order", .str fsq.SortOrder)])])
  else request

/-- The request `SearchMetrics` sends, from the request of `requestFromQuery`:
the metrics matching the metric filter whose parent flow matches the filter
of the query. -/
def metricsRequest {σ Flt Flow : Type} (c : ElasticSearchClient σ Flt Flow)
    (fsq : SearchQuery Flt) (metricFilter : Option Flt) (request : List (String × Value)) :
    List (String × Value) :=
  let flowQuery := c.FormatFilter fsq.Filter "" false
  let musts : List Value :=
    [.obj [("has_parent", .obj [("type", .str "flow"), ("query", flowQuery)])]]
  let metricQuery := c.FormatFilter metricFilter "" false
  let musts := musts ++ [metricQuery]
  let request := mapSet request "query" (.obj [("bool", .obj [("must", .arr musts)])])
  withSort fsq request

/-- The method `SearchMetrics`: the result is the map (`none` is the nil map)
and the error. -/
def SearchMetrics {σ Flt Flow K : Type} (c : ElasticSearchClient σ Flt Flow) (k : Codec Flow K)
    (w : World σ Flt Flow) (fsq : SearchQuery Flt) (metricFilter : Option Flt) :
    Outcome (Option (List (String × List TimedMetric)) × Option Error) × World σ Flt Flow :=
  let w := w.record .Started
  if !c.Started w.state then
    (.ret (none, some "ElasticSearchStorage is not yet started"), w)
  else
    match requestFromQuery fsq with
    | (_, some err) => (.ret (none, some err), w)
    | (request, none) =>
      let w := w.record (.FormatFilter fsq.Filter "" false)
      let w := w.record (.FormatFilter metricFilter "" false)
      match sendRequest c k w "metric" (metricsRequest c fsq metricFilter request) with
      | ((_, some err), w) => (.ret (none, some err), w)
      | ((out, none), w) =>
        if 0 < out.Hits.length then (collectMetrics k out.Hits [], w)
        else (.ret (some [], none), w)

/-- The hit `d` is well formed and `t` is its record: it has a source, a JSON
object that `mapstructure.Decode` accepts and that carries numeric `Start` and
`Last`; the record has the decoded metric, and `Start` and `Last` converted to
`int64`. -/
def decodesTo {Flow K : Type} (k : Codec Flow K) (d : Hit) (t : TimedMetric) : Prop :=
  ∃ src obj m s l, d.Source = some src ∧ k.Unmarshal src = .ok obj
    ∧ k.MapstructureDecode obj = .ok m
    ∧ mapGet obj "Start" = some (.float s) ∧ mapGet obj "Last" = some (.float l)
    ∧ t = { Start := k.Float64ToInt64 s, Last := k.Float64ToInt64 l, Metric := m }

/-- The number of records of a map from identities to lists of records. -/
def recordCount (metrics : List (String × List TimedMetric)) : Nat :=
  (metrics.map (fun e => e.2.length)).sum

/-- The first loop of `SearchFlows`: the flows decoded from the hits, appended
to the flows collected so far. -/
def collectFlows {Flow K : Type} (k : Codec Flow K) :
    List Hit → List Flow → Outcome (Except Error (List Flow))
  | [], flows => .ret (.ok flows)
  | d :: ds, flows =>
    match d.Source with
    | none => .panicked "invalid memory address or nil pointer dereference"
    | some src =>
      match k.UnmarshalFlow src with
      | .error err => .ret (.error err)
      | .ok f => collectFlows k ds (flows ++ [f])

/-- Modelled from the spec: the deduplication of a working set is not part of
the sources.  At most one element per distinct value of the key survives, in
first-seen order: an element is kept when its key is not among the keys `seen`
so far. -/
def dedupFrom {α κ : Type} [DecidableEq κ] (key : α → κ) : List κ → List α → List α
  | _, [] => []
  | seen, x :: xs =>
    if key x ∈ seen then dedupFrom key seen xs
    else x :: dedupFrom key (key x :: seen) xs

/-- Modelled from the spec: `Dedup([key])`, the step that is not part of the
sources, collapses the working set so that at most one element per distinct
value of `key` survives, preserving first-seen order. -/
def Dedup {α κ : Type} [DecidableEq κ] (key : α → κ) (l : List α) : List α :=
  dedupFrom key [] l

/-- Modelled from the spec: `Dedup()` without a key, whose key is the identity. -/
def DedupId {α : Type} [DecidableEq α] (l : List α) : List α := Dedup id l

/-- The keys of a list of flows for the field `field`, or the first error of
`GetField`. -/
def flowKeys {Flow K : Type} (k : Codec Flow K) (field : String) :
    List Flow → Except Error (List (Flow × K))
  | [] => .ok []
  | f :: fs =>
    match k.GetField f field with
    | .error err => .error err
    | .ok v =>
      match flowKeys k field fs with
      | .error err => .error err
      | .ok rest => .ok ((f, v) :: rest)

/-- Modelled from the spec: `FlowSet.Dedup(field)` is not part of the sources.
It fails when the key of a flow cannot be read, and otherwise keeps the first
flow of every key value, in order. -/
def FlowSetDedup {Flow K : Type} [DecidableEq K] (k : Codec Flow K) (field : String)
    (flows : List Flow) : Except Error (List Flow) :=
  match flowKeys k field flows with
  | .error err => .error err
  | .ok keyed => .ok ((Dedup Prod.snd keyed).map Prod.fst)

/-- The request `SearchFlows` sends, from the request of `requestFromQuery`:
the query is the formatted filter, the nil map when the query has no filter. -/
def flowsRequest {σ Flt Flow : Type} (c : ElasticSearchClient σ Flt Flow)
    (fsq : SearchQuery Flt) (request : List (String × Value)) : List (String × Value) :=
  let query : Value :=
    match fsq.Filter with
    | some f => c.FormatFilter (some f) "" false
    | none => .null
  let request := mapSet request "query" query
  withSort fsq request

/-- The method `SearchFlows`: the result is the flows of the flow set (`none`
is the nil pointer) and the error. -/
def SearchFlows {σ Flt Flow K : Type} [DecidableEq K] (c : ElasticSearchClient σ Flt Flow)
    (k : Codec Flow K) (w : World σ Flt Flow) (fsq : SearchQuery Flt) :
    Outcome (Option (List Flow) × Option Error) × World σ Flt Flow :=
  let w := w.record .Started
  if !c.Started w.state then
    (.ret (none, some "ElasticSearchStorage is not yet started"), w)
  else
    match requestFromQuery fsq with
    | (_, some err) => (.ret (none, some err), w)
    | (request, none) =>
      let w :=
        match fsq.Filter with
        | some f => w.record (.FormatFilter (some f) "" false)
        | none => w
      match sendRequest c k w "flow" (flowsRequest c fsq request) with
      | ((_, some err), w) => (.ret (none, some err), w)
      | ((out, none), w) =>
        let collected :=
          if 0 < out.Hits.length then collectFlows k out.Hits [] else .ret (.ok [])
        match collected with
        | .panicked r => (.panicked r, w)
        | .ret (.error err) => (.ret (none, some err), w)
        | .ret (.ok flows) =>
          if fsq.Dedup then
            match FlowSetDedup k fsq.DedupBy flows with
            | .error err => (.ret (none, some err), w)
            | .ok deduped => (.ret (some deduped, none), w)
          else (.ret (some flows, none), w)

/-- Modelled from the spec: the step `Out()` of a traversal, which is not part
of the sources, replaces the working set of nodes by the child nodes reached
through the edges from the current set, one per edge.  An edge is a pair of
its parent and its child. -/
def Out {N : Type} [DecidableEq N] (edges : List (N × N)) (ws : List N) : List N :=
  ws.flatMap (fun n => (edges.filter (fun e => e.1 = n)).map Prod.snd)


/-- The fields of a `flow.Flow` read by `StoreFlows`; the type `flow.Flow` is
not part of the sources. -/
structure FlowFields (Flow : Type) where
  UUID : Flow → String
  LastUpdateStart : Flow → Int
  LastUpdateLast : Flow → Int
  LastUpdateMetric : Flow → FlowMetric

/-- The child document `StoreFlows` builds for a flow: the counters of its
last update and the first and last instant of that update. -/
def metricDocument {Flow : Type} (v : FlowFields Flow) (f : Flow) : Value :=
  .obj [("ABBytes", .int (v.LastUpdateMetric f).ABBytes),
    ("BABytes", .int (v.LastUpdateMetric f).BABytes),
    ("ABPackets", .int (v.LastUpdateMetric f).ABPackets),
    ("BAPackets", .int (v.LastUpdateMetric f).BAPackets),
    ("Start", .int (v.LastUpdateStart f)),
    ("Last", .int (v.LastUpdateLast f))]

/-- The loop of `StoreFlows` over the flows: a flow is indexed under its UUID;
when that fails the error is logged and the loop goes on with the next flow;
otherwise, when the flow has a last update, its metric is indexed as a child
of the flow, an error being logged. -/
def storeLoop {σ Flt Flow : Type} (c : ElasticSearchClient σ Flt Flow) (v : FlowFields Flow) :
    World σ Flt Flow → List Flow → World σ Flt Flow
  | w, [] => w
  | w, f :: fs =>
    let r := c.Index w.state "flow" (v.UUID f) f
    let w : World σ Flt Flow :=
      { state := r.2, calls := w.calls ++ [.Index "flow" (v.UUID f) f] }
    match r.1 with
    | some _ => storeLoop c v w fs
    | none =>
      if v.LastUpdateStart f ≠ 0 then
        let r := c.IndexChild w.state "metric" (v.UUID f) "" (metricDocument v f)
        let w : World σ Flt Flow :=
          { state := r.2,
            calls := w.calls ++ [.IndexChild "metric" (v.UUID f) "" (metricDocument v f)] }
        storeLoop c v w fs
      else storeLoop c v w fs

/-- The method `StoreFlows`: the result is the error (`none` is nil). -/
def StoreFlows {σ Flt Flow : Type} (c : ElasticSearchClient σ Flt Flow) (v : FlowFields Flow)
    (w : World σ Flt Flow) (flows : List Flow) : Outcome (Option Error) × World σ Flt Flow :=
  let w := w.record .Started
  if !c.Started w.state then
    (.ret (some "ElasticSearchStorage is not yet started"), w)
  else (.ret none, storeLoop c v w flows)

/-- The call is an `Index` call. -/
def Call.isIndex {Flt Flow : Type} : Call Flt Flow → Bool
  | .Index _ _ _ => true
  | _ => false

/-- The call is an `IndexChild` call. -/
def Call.isIndexChild {Flt Flow : Type} : Call Flt Flow → Bool
  | .IndexChild _ _ _ _ => true
  | _ => false

/-- The call is an `Index`, `IndexChild`, `FormatFilter` or `Search` call. -/
def Call.isRequest {Flt Flow : Type} : Call Flt Flow → Bool
  | .Started => false
  | _ => true

/-- Modelled from the spec: the sum of two metrics, counter by counter; the
aggregation of metrics is not part of the sources. -/
def FlowMetric.add (a b : FlowMetric) : FlowMetric :=
  { ABPackets := a.ABPackets + b.ABPackets, ABBytes := a.ABBytes + b.ABBytes,
    BAPackets := a.BAPackets + b.BAPackets, BABytes := a.BABytes + b.BABytes }

/-- Modelled from the spec: the metric whose counters are 0. -/
def FlowMetric.zero : FlowMetric :=
  { ABPackets := 0, ABBytes := 0, BAPackets := 0, BABytes := 0 }

/-- Modelled from the spec: the summed record of the metric series of a node
over the active time window, the records being added one after the other. -/
def aggregate (window : TimeSlice) (records : List TimedMetric) : TimedMetric :=
  { Start := window.Start, Last := window.Last,
    Metric := records.foldl (fun acc r => acc.add r.Metric) FlowMetric.zero }

/-- Modelled from the spec: `Aggregates()`, the step that is not part of the
sources, reduces the metric series attached to the nodes by `Metrics()` into
one summed record per node over the active time window. -/
def Aggregates (window : TimeSlice) (metrics : List (String × List TimedMetric)) :
    List (String × TimedMetric) :=
  metrics.map (fun e => (e.1, aggregate window e.2))


/-! ## Concrete instances

The instances below give the parameters of the model on a few concrete
inputs; the examples of the theorems are stated on them. -/

/-- Modelled from the spec: the type `Node` is not part of the sources.  A node
has an identity, an owning host and metadata. -/
structure Node where
  ID : String
  Host : String
  Metadata : List (String × Value)

/-- Modelled from the spec: the type `Edge` is not part of the sources.  An
edge has an identity, the identities of its parent and child nodes, an owning
host and metadata. -/
structure Edge where
  ID : String
  Parent : String
  Child : String
  Host : String
  Metadata : List (String × Value)

/-- The metadata of a decoded graph element: the object bound to `Metadata`,
empty when there is none. -/
def metadataOf (m : List (String × Value)) : List (String × Value) :=
  match mapGet m "Metadata" with
  | some (.obj md) => md
  | _ => []

/-- Modelled from the spec: `Node.Decode` is not part of the sources.  It
accepts an object carrying the identity and the host of the node as strings. -/
def Node.Decode (v : Value) : Except Error Node :=
  match v with
  | .obj m =>
    match mapGet m "ID", mapGet m "Host" with
    | some (.str id), some (.str host) =>
      .ok { ID := id, Host := host, Metadata := metadataOf m }
    | _, _ => .error "Unable to decode graph element"
  | _ => .error "Unable to decode graph element"

/-- Modelled from the spec: `Edge.Decode` is not part of the sources.  It
accepts an object carrying the identity, the parent, the child and the host of
the edge as strings. -/
def Edge.Decode (v : Value) : Except Error Edge :=
  match v with
  | .obj m =>
    match mapGet m "ID", mapGet m "Parent", mapGet m "Child", mapGet m "Host" with
    | some (.str id), some (.str parent), some (.str child), some (.str host) =>
      .ok { ID := id, Parent := parent, Child := child, Host := host, Metadata := metadataOf m }
    | _, _, _, _ => .error "Unable to decode graph element"
  | _ => .error "Unable to decode graph element"

/-- The JSON text of an object whose `Time` is 0. -/
def timeZeroText : String := "\x7b\"Time\":0\x7d"

/-- The JSON text of an object whose `Time` is 1479116834000. -/
def timeText : String := "\x7b\"Time\":1479116834000\x7d"

/-- The JSON text of an object whose `Time` is 1.5. -/
def timeFractionText : String := "\x7b\"Time\":1.5\x7d"

/-- The JSON text of the empty object. -/
def emptyObjectText : String := "\x7b\x7d"

/-- The JSON text of the empty array. -/
def emptyArrayText : String := "[]"

/-- The JSON text of the string `host1`. -/
def hostText : String := "\"host1\""

/-- The JSON text of the node `n1` of the host `host1`. -/
def nodeText : String :=
  "\x7b\"ID\":\"n1\",\"Host\":\"host1\",\"Metadata\":\x7b\"Type\":\"bridge\",\"Name\":\"br0\"\x7d\x7d"

/-- The JSON text of the edge `e1` from the node `n1` to the node `n2`. -/
def edgeText : String :=
  "\x7b\"ID\":\"e1\",\"Parent\":\"n1\",\"Child\":\"n2\",\"Host\":\"host1\"\x7d"

/-- The JSON text of the reply carrying an empty graph. -/
def syncReplyText : String := "\x7b\"Nodes\":[],\"Edges\":[]\x7d"

/-- A text that is not valid JSON. -/
def truncatedText : String := "\x7b\"ID\":"

/-- A JSON decoder with `UseNumber`, defined on the texts of the examples and
rejecting every other text. -/
def sampleJsonDecode (raw : String) : Except Error Value :=
  if raw = timeZeroText then .ok (.obj [("Time", .number "0")])
  else if raw = timeText then .ok (.obj [("Time", .number "1479116834000")])
  else if raw = timeFractionText then .ok (.obj [("Time", .number "1.5")])
  else if raw = emptyObjectText then .ok (.obj [])
  else if raw = emptyArrayText then .ok (.arr [])
  else if raw = hostText then .ok (.str "host1")
  else if raw = nodeText then
    .ok (.obj [("ID", .str "n1"), ("Host", .str "host1"),
      ("Metadata", .obj [("Type", .str "bridge"), ("Name", .str "br0")])])
  else if raw = edgeText then
    .ok (.obj [("ID", .str "e1"), ("Parent", .str "n1"), ("Child", .str "n2"),
      ("Host", .str "host1")])
  else if raw = syncReplyText then .ok (.obj [("Nodes", .arr []), ("Edges", .arr [])])
  else .error "unexpected end of JSON input"

/-- The environment of the examples. -/
def sampleEnv : Env Node Edge :=
  { JsonDecode := sampleJsonDecode, NodeDecode := Node.Decode, EdgeDecode := Edge.Decode }


/-- Modelled from the spec: the type `flow.Flow` is not part of the sources.
A flow record has an identity and the identity of the flow it tracks across
capture points. -/
structure SampleFlow where
  UUID : String
  TrackingID : String
deriving DecidableEq

/-- The Go conversion `int64(f)` of a finite `float64` given by its bits: the
value truncated towards zero. -/
def truncFloat64 (bits : Nat) : Int :=
  let e := bits / 4503599627370496 % 2048
  let m := bits % 4503599627370496
  let mag : Nat :=
    if e < 1023 then 0
    else if 1075 ≤ e then (4503599627370496 + m) * 2 ^ (e - 1075)
    else (4503599627370496 + m) / 2 ^ (1075 - e)
  if bits / 9223372036854775808 % 2 = 1 then -(mag : Int) else (mag : Int)

/-- The counter `name` of a metric document: 0 when the document has no such
field, the truncated number when it is one, an error otherwise. -/
def sampleCounter (obj : List (String × Value)) (name : String) : Except Error Int :=
  match mapGet obj name with
  | none => .ok 0
  | some (.float b) => .ok (truncFloat64 b)
  | some _ => .error "expected type int64, got unconvertible type"

/-- The decoding of a metric document into a `flow.FlowMetric`. -/
def sampleMapstructureDecode (obj : List (String × Value)) : Except Error FlowMetric :=
  match sampleCounter obj "ABPackets", sampleCounter obj "ABBytes",
      sampleCounter obj "BAPackets", sampleCounter obj "BABytes" with
  | .ok abp, .ok abb, .ok bap, .ok bab =>
    .ok { ABPackets := abp, ABBytes := abb, BAPackets := bap, BABytes := bab }
  | _, _, _, _ => .error "expected type int64, got unconvertible type"

/-- The source of a metric of 3 packets from 1000 to 2000. -/
def metricText1 : String :=
  "\x7b\"ABPackets\":3,\"ABBytes\":252,\"Start\":1000,\"Last\":2000\x7d"

/-- The source of a metric of 3 packets from 2000 to 3000. -/
def metricText2 : String :=
  "\x7b\"ABPackets\":3,\"ABBytes\":252,\"Start\":2000,\"Last\":3000\x7d"

/-- The source of a metric of 1 packet from 3000 to 4000. -/
def metricText3 : String :=
  "\x7b\"ABPackets\":1,\"ABBytes\":84,\"Start\":3000,\"Last\":4000\x7d"

/-- The source of the flow `f1`, tracked as `t1`. -/
def flowText1 : String := "\x7b\"UUID\":\"f1\",\"TrackingID\":\"t1\"\x7d"

/-- The source of the flow `f2`, tracked as `t2`. -/
def flowText2 : String := "\x7b\"UUID\":\"f2\",\"TrackingID\":\"t2\"\x7d"

/-- The source of the flow `f3`, tracked as `t1`. -/
def flowText3 : String := "\x7b\"UUID\":\"f3\",\"TrackingID\":\"t1\"\x7d"

/-- The library functions of the examples, defined on the documents of the
examples: numbers are decoded to `float64`. -/
def sampleCodec : Codec SampleFlow String :=
  { Marshal := fun _ => .ok "request"
    Unmarshal := fun src =>
      if src = metricText1 then
        .ok [("ABPackets", .float 4613937818241073152), ("ABBytes", .float 4643070478330626048),
          ("Start", .float 4652007308841189376), ("Last", .float 4656510908468559872)]
      else if src = metricText2 then
        .ok [("ABPackets", .float 4613937818241073152), ("ABBytes", .float 4643070478330626048),
          ("Start", .float 4656510908468559872), ("Last", .float 4658815484840378368)]
      else if src = metricText3 then
        .ok [("ABPackets", .float 4607182418800017408), ("ABBytes", .float 4635611391447793664),
          ("Start", .float 4658815484840378368), ("Last", .float 4661014508095930368)]
      else .error "unexpected end of JSON input"
    UnmarshalFlow := fun src =>
      if src = flowText1 then .ok { UUID := "f1", TrackingID := "t1" }
      else if src = flowText2 then .ok { UUID := "f2", TrackingID := "t2" }
      else if src = flowText3 then .ok { UUID := "f3", TrackingID := "t1" }
      else .error "unexpected end of JSON input"
    MapstructureDecode := sampleMapstructureDecode
    Float64ToInt64 := truncFloat64
    GetField := fun f field =>
      if field = "UUID" then .ok f.UUID
      else if field = "TrackingID" ∨ field = "" then .ok f.TrackingID
      else .error "Field not found" }

/-- The hits of the metric search of the examples: two metrics of the flow
`f1` around a metric of the flow `f2`. -/
def sampleMetricHits : List Hit :=
  [{ Parent := "f1", Source := some metricText1 },
   { Parent := "f2", Source := some metricText3 },
   { Parent := "f1", Source := some metricText2 }]

/-- The hits of the flow search of the examples: the flows `f1` and `f3` track
the same flow. -/
def sampleFlowHits : List Hit :=
  [{ Parent := "", Source := some flowText1 },
   { Parent := "", Source := some flowText2 },
   { Parent := "", Source := some flowText3 }]

/-- The client of the examples: it is started, its state counts the requests
sent to the backend, a filter is the identity of a flow, and a search returns
the hits of the examples. -/
def sampleClient : ElasticSearchClient Nat String SampleFlow :=
  { Started := fun _ => true
    Index := fun s _ _ _ => (none, s + 1)
    IndexChild := fun s _ _ _ _ => (none, s + 1)
    FormatFilter := fun f _ _ =>
      match f with
      | none => .null
      | some id => .obj [("term", .obj [("UUID", .str id)])]
    Search := fun s docType _ =>
      if docType = "metric" then (({ Hits := sampleMetricHits }, none), s + 1)
      else (({ Hits := sampleFlowHits }, none), s + 1) }

/-- A query without filter, pagination, sort or deduplication. -/
def plainQuery : SearchQuery String :=
  { Filter := none, PaginationRange := none, Sort_ := false, SortBy := "", SortOrder := "",
    Dedup := false, DedupBy := "" }

/-- A query for the pagination window `r`. -/
def pagedQuery (r : Range) : SearchQuery String :=
  { plainQuery with PaginationRange := some r }

/-- A query whose flows are deduplicated by the field `field`. -/
def dedupQuery (field : String) : SearchQuery String :=
  { plainQuery with Dedup := true, DedupBy := field }

/-- The record of a metric hit of the examples. -/
def sampleRecord (d : Hit) : TimedMetric :=
  if d.Source = some metricText1 then
    { Start := 1000, Last := 2000,
      Metric := { ABPackets := 3, ABBytes := 252, BAPackets := 0, BABytes := 0 } }
  else if d.Source = some metricText2 then
    { Start := 2000, Last := 3000,
      Metric := { ABPackets := 3, ABBytes := 252, BAPackets := 0, BABytes := 0 } }
  else
    { Start := 3000, Last := 4000,
      Metric := { ABPackets := 1, ABBytes := 84, BAPackets := 0, BABytes := 0 } }

/-- The flow of a flow hit of the examples. -/
def sampleFlowOf (d : Hit) : SampleFlow :=
  if d.Source = some flowText1 then { UUID := "f1", TrackingID := "t1" }
  else if d.Source = some flowText2 then { UUID := "f2", TrackingID := "t2" }
  else { UUID := "f3", TrackingID := "t1" }

/-- The graph of the bridge example: two links from the bridge `A` to the port
`B`, one link from the port `B` to the interface `C`. -/
def bridgeEdges : List (String × String) := [("A", "B"), ("A", "B"), ("B", "C")]


/-- Modelled from the spec: the type `flow.Flow` is not part of the sources.
A stored flow has an identity and the window and counters of its last update,
the window starting at 0 when the flow was not updated. -/
structure StoredFlow where
  UUID : String
  LastUpdateStart : Int
  LastUpdateLast : Int
  LastUpdateMetric : FlowMetric
deriving DecidableEq

/-- The fields of a stored flow. -/
def storedFlowFields : FlowFields StoredFlow :=
  { UUID := fun f => f.UUID
    LastUpdateStart := fun f => f.LastUpdateStart
    LastUpdateLast := fun f => f.LastUpdateLast
    LastUpdateMetric := fun f => f.LastUpdateMetric }

/-- A flow of identity `id` updated from 1000 to 2000 with 3 packets of 252
bytes. -/
def updatedFlow (id : String) : StoredFlow :=
  { UUID := id, LastUpdateStart := 1000, LastUpdateLast := 2000,
    LastUpdateMetric := { ABPackets := 3, ABBytes := 252, BAPackets := 0, BABytes := 0 } }

/-- A flow of identity `id` without update. -/
def freshFlow (id : String) : StoredFlow :=
  { UUID := id, LastUpdateStart := 0, LastUpdateLast := 0,
    LastUpdateMetric := FlowMetric.zero }

/-- The flows stored in the examples. -/
def storedFlows : List StoredFlow :=
  [updatedFlow "f1", updatedFlow "bad", freshFlow "f3", updatedFlow "f4", updatedFlow "f5"]

/-- A started client whose state counts the documents indexed: the document
of identity `bad` and the children of the document `f4` are refused. -/
def storeClient : ElasticSearchClient Nat String StoredFlow :=
  { Started := fun _ => true
    Index := fun s _ id _ => if id = "bad" then (some "index failed", s) else (none, s + 1)
    IndexChild := fun s _ parent _ _ =>
      if parent = "f4" then (some "index failed", s) else (none, s + 1)
    FormatFilter := fun _ _ _ => .null
    Search := fun s _ _ => ((SearchResult.empty, none), s) }

/-- A client that is not started. -/
def stoppedClient : ElasticSearchClient Nat String StoredFlow :=
  { storeClient with Started := fun _ => false }

/-- Library functions for stored flows, which decode no document. -/
def storedCodec : Codec StoredFlow String :=
  { Marshal := fun _ => .ok "request"
    Unmarshal := fun _ => .error "unexpected end of JSON input"
    UnmarshalFlow := fun _ => .error "unexpected end of JSON input"
    MapstructureDecode := sampleMapstructureDecode
    Float64ToInt64 := truncFloat64
    GetField := fun f field =>
      if field = "UUID" then .ok f.UUID else .error "Field not found" }

/-- The child document of a flow updated from 1000 to 2000 with 3 packets of
252 bytes. -/
def updatedDocument : Value :=
  .obj [("ABBytes", .int 252), ("BABytes", .int 0), ("ABPackets", .int 3),
    ("BAPackets", .int 0), ("Start", .int 1000), ("Last", .int 2000)]


/-! ## Properties of `UnmarshalWSMessage` -/

/-- C1, as stated, fails: a `SyncReply` message with a well-formed payload is
not recognised, the returned type string is empty and differs from the type of
the message. -/
theorem UnmarshalWSMessage_SyncReply_not_recognised :
    sampleEnv.JsonDecode syncReplyText = .ok (.obj [("Nodes", .arr []), ("Edges", .arr [])]) ∧
    UnmarshalWSMessage sampleEnv { Type_ := SyncReplyMsgType, Obj := some syncReplyText }
      = .ret ("", .message { Type_ := SyncReplyMsgType, Obj := some syncReplyText }, none) ∧
    ¬ ∃ p, UnmarshalWSMessage sampleEnv { Type_ := SyncReplyMsgType, Obj := some syncReplyText }
      = .ret (SyncReplyMsgType, p, none) := by
  refine ⟨rfl, rfl, ?_⟩
  rintro ⟨p, hp⟩
  have h : UnmarshalWSMessage sampleEnv { Type_ := SyncReplyMsgType, Obj := some syncReplyText }
      = .ret ("", .message { Type_ := SyncReplyMsgType, Obj := some syncReplyText }, none) := rfl
  rw [h] at hp
  injection hp with hp
  injection hp with h1 h2
  exact absurd h1 (by decide)

/-- C1, amended: for every message whose type is one of the eight types
SyncRequest, HostGraphDeleted, NodeAdded, NodeUpdated, NodeDeleted, EdgeAdded,
EdgeUpdated, EdgeDeleted and whose payload is well formed for that type, the
returned type string is the type of the message, which is not empty, and the
error is nil; a `SyncReply` message with a valid JSON payload is returned
as it is, with the empty type string and a nil error. -/
theorem UnmarshalWSMessage_recognised {Node Edge : Type} (env : Env Node Edge)
    (msg : WSMessage) (raw : String) (obj : Value)
    (hobj : msg.Obj = some raw) (hdec : env.JsonDecode raw = .ok obj) :
    (wellFormedPayload env msg.Type_ obj →
      ∃ p, UnmarshalWSMessage env msg = .ret (msg.Type_, p, none) ∧ msg.Type_ ≠ "")
    ∧ (msg.Type_ = SyncReplyMsgType →
      UnmarshalWSMessage env msg = .ret ("", .message msg, none)) := by
  constructor
  · rintro (⟨ht, m, rfl, hm⟩ | ht | ⟨ht, n, hn⟩ | ⟨ht, e, he⟩)
    · cases hT : mapGet m "Time" with
      | none =>
        exact ⟨.context { TimeSlice := none }, by simp [UnmarshalWSMessage, hobj, hdec, ht, hT],
          by simp [ht, SyncRequestMsgType]⟩
      | some t =>
        cases t with
        | number v =>
          obtain ⟨i, hi⟩ := hm v hT
          exact ⟨.context { TimeSlice := some (NewTimeSlice i i) },
            by simp [UnmarshalWSMessage, hobj, hdec, ht, hT, hi], by simp [ht, SyncRequestMsgType]⟩
        | _ =>
          exact ⟨.context { TimeSlice := none }, by simp [UnmarshalWSMessage, hobj, hdec, ht, hT],
            by simp [ht, SyncRequestMsgType]⟩
    · exact ⟨.object obj, by simp [UnmarshalWSMessage, hobj, hdec, ht, HostGraphDeletedMsgType,
        SyncRequestMsgType], by simp [ht, HostGraphDeletedMsgType]⟩
    · refine ⟨.node n, ?_, ?_⟩
      · rcases ht with ht | ht | ht <;>
          simp [UnmarshalWSMessage, hobj, hdec, ht, hn, HostGraphDeletedMsgType,
            SyncRequestMsgType, NodeUpdatedMsgType, NodeDeletedMsgType, NodeAddedMsgType]
      · rcases ht with ht | ht | ht <;>
          simp [ht, NodeUpdatedMsgType, NodeDeletedMsgType, NodeAddedMsgType]
    · refine ⟨.edge e, ?_, ?_⟩
      · rcases ht with ht | ht | ht <;>
          simp [UnmarshalWSMessage, hobj, hdec, ht, he, HostGraphDeletedMsgType,
            SyncRequestMsgType, NodeUpdatedMsgType, NodeDeletedMsgType, NodeAddedMsgType,
            EdgeUpdatedMsgType, EdgeDeletedMsgType, EdgeAddedMsgType]
      · rcases ht with ht | ht | ht <;>
          simp [ht, EdgeUpdatedMsgType, EdgeDeletedMsgType, EdgeAddedMsgType]
  · intro ht
    simp [UnmarshalWSMessage, hobj, hdec, ht, HostGraphDeletedMsgType,
      SyncRequestMsgType, NodeUpdatedMsgType, NodeDeletedMsgType, NodeAddedMsgType,
      EdgeUpdatedMsgType, EdgeDeletedMsgType, EdgeAddedMsgType, SyncReplyMsgType]

/-- The amended C1 on a `NodeAdded` message carrying a node and on a
`SyncReply` message. -/
theorem UnmarshalWSMessage_recognised_witness :
    (∃ p, UnmarshalWSMessage sampleEnv { Type_ := NodeAddedMsgType, Obj := some nodeText }
        = .ret (NodeAddedMsgType, p, none) ∧ NodeAddedMsgType ≠ "")
    ∧ UnmarshalWSMessage sampleEnv { Type_ := SyncReplyMsgType, Obj := some syncReplyText }
        = .ret ("", .message { Type_ := SyncReplyMsgType, Obj := some syncReplyText }, none) :=
  ⟨(UnmarshalWSMessage_recognised sampleEnv { Type_ := NodeAddedMsgType, Obj := some nodeText }
      nodeText _ rfl rfl).1
      (Or.inr (Or.inr (Or.inl ⟨Or.inr (Or.inr rfl), _, rfl⟩))),
   (UnmarshalWSMessage_recognised sampleEnv { Type_ := SyncReplyMsgType, Obj := some syncReplyText }
      syncReplyText _ rfl rfl).2 rfl⟩


/-! ## The decimal literal of an `int64` -/

/-- The value of the character of a decimal digit is the digit. -/
theorem digitVal_digitChar (d : Nat) (h : d < 10) : digitVal (Nat.digitChar d) = some d := by
  interval_cases d <;> rfl

/-- Reading the decimal digits of `n` written in front of `ds` amounts to reading `ds` from the accumulator `n`. -/
theorem parseDigits_toDigitsCore (fuel : Nat) :
    ∀ (n : Nat) (ds : List Char), n < fuel →
      parseDigits (Nat.toDigitsCore 10 fuel n ds) 0 = parseDigits ds n := by
  induction fuel with
  | zero => intro n ds h; omega
  | succ fuel ih =>
    intro n ds h
    have hd : digitVal (Nat.digitChar (n % 10)) = some (n % 10) :=
      digitVal_digitChar (n % 10) (Nat.mod_lt n (by decide))
    by_cases h0 : n / 10 = 0
    · have hn : n % 10 = n := Nat.mod_eq_of_lt (by omega)
      rw [hn] at hd
      simp [Nat.toDigitsCore, h0, parseDigits, hd, hn]
    · have hlt : n / 10 < fuel := by omega
      have hn : n / 10 * 10 + n % 10 = n := by omega
      simp [Nat.toDigitsCore, h0, ih (n / 10) _ hlt, parseDigits, hd, hn]

/-- The decimal digits of a number are not the empty list. -/
theorem toDigitsCore_ne_nil (fuel : Nat) :
    ∀ (n : Nat) (ds : List Char), (0 < fuel ∨ ds ≠ []) → Nat.toDigitsCore 10 fuel n ds ≠ [] := by
  induction fuel with
  | zero =>
    intro n ds h
    rcases h with h | h
    · omega
    · simpa [Nat.toDigitsCore] using h
  | succ fuel ih =>
    intro n ds _
    by_cases h0 : n / 10 = 0
    · simp [Nat.toDigitsCore, h0]
    · simp only [Nat.toDigitsCore, h0, if_false]
      exact ih _ _ (Or.inr (by simp))

/-- Reading the decimal literal of `n` gives `n`. -/
theorem parseDigits_repr (n : Nat) : parseDigits (Nat.repr n).data 0 = some n := by
  have h := parseDigits_toDigitsCore (n + 1) n [] (by omega)
  simpa [Nat.repr, Nat.toDigits, List.asString, parseDigits] using h

/-- The decimal literal of a number is not empty. -/
theorem repr_data_ne_nil (n : Nat) : (Nat.repr n).data ≠ [] := by
  have h := toDigitsCore_ne_nil (n + 1) n [] (Or.inl (by omega))
  simpa [Nat.repr, Nat.toDigits, List.asString] using h

/-- The magnitude read from the decimal literal of `n` is `n`, within the range of `int64`. -/
theorem parseMagnitude_repr (neg : Bool) (n : Nat) :
    parseMagnitude neg (Nat.repr n).data
      = if neg then
          if n ≤ 9223372036854775808 then .ok (-(n : Int)) else .error "value out of range"
        else
          if n < 9223372036854775808 then .ok (n : Int) else .error "value out of range" := by
  have hp := parseDigits_repr n
  cases hl : (Nat.repr n).data with
  | nil => exact absurd hl (repr_data_ne_nil n)
  | cons c cs =>
    rw [hl] at hp
    simp [parseMagnitude, hp]

/-- The decimal literal of an integer in the range of `int64` is a
`json.Number` whose `Int64` is that integer. -/
theorem NumberInt64_toString (i : Int) (h : isInt64 i) : NumberInt64 (toString i) = .ok i := by
  unfold isInt64 minInt64 maxInt64 at h
  cases i with
  | ofNat n =>
    have hs : toString (Int.ofNat n) = Nat.repr n := rfl
    rw [hs]
    have hp := parseDigits_repr n
    have hm := parseMagnitude_repr false n
    cases hl : (Nat.repr n).data with
    | nil => exact absurd hl (repr_data_ne_nil n)
    | cons c cs =>
      rw [hl] at hp hm
      have hc : digitVal c ≠ none := by
        intro hc
        simp [parseDigits, hc] at hp
      have h1 : c ≠ '+' := by
        intro e; subst e; exact hc (by decide)
      have h2 : c ≠ '-' := by
        intro e; subst e; exact hc (by decide)
      have hn : n < 9223372036854775808 := by
        have := h.2
        simp only [Int.ofNat_eq_coe] at this
        omega
      simp [NumberInt64, hl, h1, h2, hm, hn]
  | negSucc n =>
    have hs : toString (Int.negSucc n) = "-" ++ Nat.repr (n + 1) := rfl
    rw [hs]
    have hm := parseMagnitude_repr true (n + 1)
    have hn : n + 1 ≤ 9223372036854775808 := by
      have := h.1
      rw [Int.negSucc_eq] at this
      omega
    have hd : ("-" ++ Nat.repr (n + 1)).data = '-' :: (Nat.repr (n + 1)).data := by
      simp [String.data_append]
    simp only [NumberInt64, hd]
    simp [hm, hn, Int.negSucc_eq]


/-- The number `parseMagnitude` returns is in the range of `int64`. -/
theorem parseMagnitude_isInt64 (neg : Bool) (cs : List Char) (i : Int)
    (h : parseMagnitude neg cs = .ok i) : isInt64 i := by
  unfold parseMagnitude at h
  cases cs with
  | nil => simp at h
  | cons c cs =>
    simp only at h
    cases hp : parseDigits (c :: cs) 0 with
    | none => simp [hp] at h
    | some un =>
      simp only [hp] at h
      cases neg with
      | true =>
        simp only [if_true] at h
        split at h
        · injection h with h
          subst h
          unfold isInt64 minInt64 maxInt64
          omega
        · simp at h
      | false =>
        simp only [Bool.false_eq_true, if_false] at h
        split at h
        · injection h with h
          subst h
          unfold isInt64 minInt64 maxInt64
          omega
        · simp at h

/-- The number `json.Number.Int64` returns is in the range of `int64`. -/
theorem NumberInt64_isInt64 (v : String) (i : Int) (h : NumberInt64 v = .ok i) : isInt64 i := by
  unfold NumberInt64 at h
  cases hl : v.data with
  | nil => simp [hl] at h
  | cons c cs =>
    simp only [hl] at h
    split at h
    · exact parseMagnitude_isInt64 false cs i h
    · split at h
      · exact parseMagnitude_isInt64 true cs i h
      · exact parseMagnitude_isInt64 false (c :: cs) i h

/-- C2: on a node message whose decoded payload `Node.Decode` accepts the
result is the type of the message, the decoded node and no error; on an edge
message whose decoded payload `Edge.Decode` accepts it is the type of the
message, the decoded edge and no error; on a `HostGraphDeleted` message with a
valid JSON payload it is the type of the message, the decoded JSON value
unchanged and no error. -/
theorem UnmarshalWSMessage_payload {Node Edge : Type} (env : Env Node Edge)
    (msg : WSMessage) (raw : String) (obj : Value)
    (hobj : msg.Obj = some raw) (hdec : env.JsonDecode raw = .ok obj) :
    ((msg.Type_ = NodeAddedMsgType ∨ msg.Type_ = NodeUpdatedMsgType
        ∨ msg.Type_ = NodeDeletedMsgType) →
      ∀ n, env.NodeDecode obj = .ok n →
        UnmarshalWSMessage env msg = .ret (msg.Type_, .node n, none))
    ∧ ((msg.Type_ = EdgeAddedMsgType ∨ msg.Type_ = EdgeUpdatedMsgType
        ∨ msg.Type_ = EdgeDeletedMsgType) →
      ∀ e, env.EdgeDecode obj = .ok e →
        UnmarshalWSMessage env msg = .ret (msg.Type_, .edge e, none))
    ∧ (msg.Type_ = HostGraphDeletedMsgType →
        UnmarshalWSMessage env msg = .ret (msg.Type_, .object obj, none)) := by
  refine ⟨?_, ?_, ?_⟩
  · intro ht n hn
    rcases ht with ht | ht | ht <;>
      simp [UnmarshalWSMessage, hobj, hdec, ht, hn, HostGraphDeletedMsgType,
        SyncRequestMsgType, NodeUpdatedMsgType, NodeDeletedMsgType, NodeAddedMsgType]
  · intro ht e he
    rcases ht with ht | ht | ht <;>
      simp [UnmarshalWSMessage, hobj, hdec, ht, he, HostGraphDeletedMsgType,
        SyncRequestMsgType, NodeUpdatedMsgType, NodeDeletedMsgType, NodeAddedMsgType,
        EdgeUpdatedMsgType, EdgeDeletedMsgType, EdgeAddedMsgType]
  · intro ht
    simp [UnmarshalWSMessage, hobj, hdec, ht, HostGraphDeletedMsgType, SyncRequestMsgType]

/-- C2 on a `NodeUpdated` message carrying the node `n1`, an `EdgeDeleted`
message carrying the edge `e1` and a `HostGraphDeleted` message carrying the
host `host1`. -/
theorem UnmarshalWSMessage_payload_witness :
    UnmarshalWSMessage sampleEnv { Type_ := NodeUpdatedMsgType, Obj := some nodeText }
      = .ret (NodeUpdatedMsgType,
          .node { ID := "n1", Host := "host1",
                  Metadata := [("Type", .str "bridge"), ("Name", .str "br0")] }, none)
    ∧ UnmarshalWSMessage sampleEnv { Type_ := EdgeDeletedMsgType, Obj := some edgeText }
      = .ret (EdgeDeletedMsgType,
          .edge { ID := "e1", Parent := "n1", Child := "n2", Host := "host1", Metadata := [] },
          none)
    ∧ UnmarshalWSMessage sampleEnv { Type_ := HostGraphDeletedMsgType, Obj := some hostText }
      = .ret (HostGraphDeletedMsgType, .object (.str "host1"), none) :=
  ⟨(UnmarshalWSMessage_payload sampleEnv { Type_ := NodeUpdatedMsgType, Obj := some nodeText }
      nodeText _ rfl rfl).1 (Or.inr (Or.inl rfl)) _ rfl,
   (UnmarshalWSMessage_payload sampleEnv { Type_ := EdgeDeletedMsgType, Obj := some edgeText }
      edgeText _ rfl rfl).2.1 (Or.inr (Or.inr rfl)) _ rfl,
   (UnmarshalWSMessage_payload sampleEnv
      { Type_ := HostGraphDeletedMsgType, Obj := some hostText } hostText _ rfl rfl).2.2 rfl⟩

/-- C3: on a `SyncRequest` whose payload is a JSON object, when `Time` is a
number whose `Int64` is `i`, as the decimal literal of every `int64` `i` is,
the result is `"SyncRequest"`, a context whose time slice is
`NewTimeSlice(i, i)`, of start and last `i`, and no error; when the object has
no `Time` the result is `"SyncRequest"`, the zero context, without a time
slice, and no error. -/
theorem UnmarshalWSMessage_SyncRequest {Node Edge : Type} (env : Env Node Edge)
    (msg : WSMessage) (raw : String) (m : List (String × Value))
    (ht : msg.Type_ = SyncRequestMsgType) (hobj : msg.Obj = some raw)
    (hdec : env.JsonDecode raw = .ok (.obj m)) :
    (∀ v i, mapGet m "Time" = some (.number v) → NumberInt64 v = .ok i →
      UnmarshalWSMessage env msg
          = .ret ("SyncRequest", .context { TimeSlice := some (NewTimeSlice i i) }, none)
        ∧ (NewTimeSlice i i).Start = i ∧ (NewTimeSlice i i).Last = i ∧ isInt64 i)
    ∧ (∀ i, isInt64 i → mapGet m "Time" = some (.number (toString i)) →
      UnmarshalWSMessage env msg
          = .ret ("SyncRequest", .context { TimeSlice := some (NewTimeSlice i i) }, none)
        ∧ (NewTimeSlice i i).Start = i ∧ (NewTimeSlice i i).Last = i)
    ∧ (mapGet m "Time" = none →
      UnmarshalWSMessage env msg
          = .ret ("SyncRequest", .context { TimeSlice := none }, none)) := by
  have hnum : ∀ v i, mapGet m "Time" = some (.number v) → NumberInt64 v = .ok i →
      UnmarshalWSMessage env msg
        = .ret ("SyncRequest", .context { TimeSlice := some (NewTimeSlice i i) }, none) := by
    intro v i hT hi
    simp [UnmarshalWSMessage, hobj, hdec, ht, hT, hi, SyncRequestMsgType]
  refine ⟨?_, ?_, ?_⟩
  · intro v i hT hi
    exact ⟨hnum v i hT hi, rfl, rfl, NumberInt64_isInt64 v i hi⟩
  · intro i hi hT
    exact ⟨hnum (toString i) i hT (NumberInt64_toString i hi), rfl, rfl⟩
  · intro hT
    simp [UnmarshalWSMessage, hobj, hdec, ht, hT, SyncRequestMsgType]

/-- C3 on a request for the instant 1479116834000 and on a request without
`Time`. -/
theorem UnmarshalWSMessage_SyncRequest_witness :
    (UnmarshalWSMessage sampleEnv { Type_ := SyncRequestMsgType, Obj := some timeText }
        = .ret ("SyncRequest",
            .context { TimeSlice := some (NewTimeSlice 1479116834000 1479116834000) }, none)
      ∧ (NewTimeSlice 1479116834000 1479116834000).Start = 1479116834000
      ∧ (NewTimeSlice 1479116834000 1479116834000).Last = 1479116834000
      ∧ isInt64 1479116834000)
    ∧ UnmarshalWSMessage sampleEnv { Type_ := SyncRequestMsgType, Obj := some emptyObjectText }
        = .ret ("SyncRequest", .context { TimeSlice := none }, none) :=
  ⟨(UnmarshalWSMessage_SyncRequest sampleEnv
      { Type_ := SyncRequestMsgType, Obj := some timeText } timeText
      [("Time", .number "1479116834000")] rfl rfl rfl).1 "1479116834000" 1479116834000 rfl rfl,
   (UnmarshalWSMessage_SyncRequest sampleEnv
      { Type_ := SyncRequestMsgType, Obj := some emptyObjectText } emptyObjectText
      [] rfl rfl rfl).2.2 rfl⟩

/-- C4, as stated, fails: a `SyncRequest` carrying `Time` 0 returns a context
with the time slice from 0 to 0, a `SyncRequest` carrying no `Time` returns
the zero context, and the two results differ. -/
theorem UnmarshalWSMessage_zero_time_differs :
    UnmarshalWSMessage sampleEnv { Type_ := SyncRequestMsgType, Obj := some timeZeroText }
      = .ret ("SyncRequest", .context { TimeSlice := some { Start := 0, Last := 0 } }, none)
    ∧ UnmarshalWSMessage sampleEnv { Type_ := SyncRequestMsgType, Obj := some emptyObjectText }
      = .ret ("SyncRequest", .context { TimeSlice := none }, none)
    ∧ UnmarshalWSMessage sampleEnv { Type_ := SyncRequestMsgType, Obj := some timeZeroText }
      ≠ UnmarshalWSMessage sampleEnv { Type_ := SyncRequestMsgType, Obj := some emptyObjectText } := by
  refine ⟨rfl, rfl, ?_⟩
  have h0 : UnmarshalWSMessage sampleEnv { Type_ := SyncRequestMsgType, Obj := some timeZeroText }
      = .ret ("SyncRequest", .context { TimeSlice := some { Start := 0, Last := 0 } }, none) :=
    rfl
  have h1 : UnmarshalWSMessage sampleEnv
      { Type_ := SyncRequestMsgType, Obj := some emptyObjectText }
      = .ret ("SyncRequest", .context { TimeSlice := none }, none) := rfl
  rw [h0, h1]
  intro h
  injection h with h
  injection h with _ h
  injection h with h _
  injection h with h
  injection h with h
  exact Option.noConfusion h

/-- C4, amended: on a `SyncRequest` whose payload is a JSON object carrying a
number `Time` of value 0, the result is `"SyncRequest"`, a context whose time
slice is set, to `NewTimeSlice(0, 0)`, and no error; this context is not the
zero context returned for a `SyncRequest` carrying no `Time`. -/
theorem UnmarshalWSMessage_zero_time {Node Edge : Type} (env : Env Node Edge)
    (msg : WSMessage) (raw : String) (m : List (String × Value)) (v : String)
    (ht : msg.Type_ = SyncRequestMsgType) (hobj : msg.Obj = some raw)
    (hdec : env.JsonDecode raw = .ok (.obj m))
    (hT : mapGet m "Time" = some (.number v)) (hv : NumberInt64 v = .ok 0) :
    UnmarshalWSMessage env msg
        = .ret ("SyncRequest", .context { TimeSlice := some (NewTimeSlice 0 0) }, none)
    ∧ ({ TimeSlice := some (NewTimeSlice 0 0) } : GraphContext) ≠ { TimeSlice := none }
    ∧ ∀ (msg' : WSMessage) (raw' : String) (m' : List (String × Value)),
        msg'.Type_ = SyncRequestMsgType → msg'.Obj = some raw' →
        env.JsonDecode raw' = .ok (.obj m') → mapGet m' "Time" = none →
        UnmarshalWSMessage env msg ≠ UnmarshalWSMessage env msg' := by
  have h0 : UnmarshalWSMessage env msg
      = .ret ("SyncRequest", .context { TimeSlice := some (NewTimeSlice 0 0) }, none) := by
    simp [UnmarshalWSMessage, hobj, hdec, ht, hT, hv, SyncRequestMsgType]
  refine ⟨h0, by decide, ?_⟩
  intro msg' raw' m' ht' hobj' hdec' hT'
  have h1 : UnmarshalWSMessage env msg'
      = .ret ("SyncRequest", .context { TimeSlice := none }, none) := by
    simp [UnmarshalWSMessage, hobj', hdec', ht', hT', SyncRequestMsgType]
  rw [h0, h1]
  intro h
  injection h with h
  injection h with _ h
  injection h with h _
  injection h with h
  injection h with h
  exact Option.noConfusion h

/-- The amended C4 on the request carrying `Time` 0. -/
theorem UnmarshalWSMessage_zero_time_witness :
    UnmarshalWSMessage sampleEnv { Type_ := SyncRequestMsgType, Obj := some timeZeroText }
        = .ret ("SyncRequest", .context { TimeSlice := some (NewTimeSlice 0 0) }, none)
    ∧ ({ TimeSlice := some (NewTimeSlice 0 0) } : GraphContext) ≠ { TimeSlice := none } :=
  have h := UnmarshalWSMessage_zero_time sampleEnv
    { Type_ := SyncRequestMsgType, Obj := some timeZeroText } timeZeroText
    [("Time", .number "0")] "0" rfl rfl rfl rfl rfl
  ⟨h.1, h.2.1⟩

/-- C5: a message whose payload is not valid JSON, a node or edge message whose
decoded payload `Node.Decode` or `Edge.Decode` rejects, and a `SyncRequest`
whose `Time` is a number that is not an `int64`, are answered with the empty
type string, the original message as payload and the error of the failing
step, which is not nil. -/
theorem UnmarshalWSMessage_malformed {Node Edge : Type} (env : Env Node Edge)
    (msg : WSMessage) (raw : String) (err : Error)
    (hobj : msg.Obj = some raw) (h : malformed env msg raw err) :
    UnmarshalWSMessage env msg = .ret ("", .message msg, some err) := by
  rcases h with h | ⟨obj, hdec, ht, hn⟩ | ⟨obj, hdec, ht, he⟩ | ⟨m, v, hdec, ht, hT, hv⟩
  · simp [UnmarshalWSMessage, hobj, h]
  · rcases ht with ht | ht | ht <;>
      simp [UnmarshalWSMessage, hobj, hdec, ht, hn, HostGraphDeletedMsgType,
        SyncRequestMsgType, NodeUpdatedMsgType, NodeDeletedMsgType, NodeAddedMsgType]
  · rcases ht with ht | ht | ht <;>
      simp [UnmarshalWSMessage, hobj, hdec, ht, he, HostGraphDeletedMsgType,
        SyncRequestMsgType, NodeUpdatedMsgType, NodeDeletedMsgType, NodeAddedMsgType,
        EdgeUpdatedMsgType, EdgeDeletedMsgType, EdgeAddedMsgType]
  · simp [UnmarshalWSMessage, hobj, hdec, ht, hT, hv]

/-- C5 on a message of unknown type with a truncated payload, a `NodeAdded`
message carrying an edge without host, an `EdgeAdded` message carrying a node,
and a `SyncRequest` for the instant 1.5. -/
theorem UnmarshalWSMessage_malformed_witness :
    UnmarshalWSMessage sampleEnv { Type_ := "Unknown", Obj := some truncatedText }
      = .ret ("", .message { Type_ := "Unknown", Obj := some truncatedText },
          some "unexpected end of JSON input")
    ∧ UnmarshalWSMessage sampleEnv { Type_ := NodeAddedMsgType, Obj := some emptyObjectText }
      = .ret ("", .message { Type_ := NodeAddedMsgType, Obj := some emptyObjectText },
          some "Unable to decode graph element")
    ∧ UnmarshalWSMessage sampleEnv { Type_ := EdgeAddedMsgType, Obj := some nodeText }
      = .ret ("", .message { Type_ := EdgeAddedMsgType, Obj := some nodeText },
          some "Unable to decode graph element")
    ∧ UnmarshalWSMessage sampleEnv { Type_ := SyncRequestMsgType, Obj := some timeFractionText }
      = .ret ("", .message { Type_ := SyncRequestMsgType, Obj := some timeFractionText },
          some "invalid syntax") :=
  ⟨UnmarshalWSMessage_malformed sampleEnv { Type_ := "Unknown", Obj := some truncatedText }
      truncatedText _ rfl (Or.inl rfl),
   UnmarshalWSMessage_malformed sampleEnv
      { Type_ := NodeAddedMsgType, Obj := some emptyObjectText } emptyObjectText _ rfl
      (Or.inr (Or.inl ⟨.obj [], rfl, Or.inr (Or.inr rfl), rfl⟩)),
   UnmarshalWSMessage_malformed sampleEnv
      { Type_ := EdgeAddedMsgType, Obj := some nodeText } nodeText _ rfl
      (Or.inr (Or.inr (Or.inl ⟨_, rfl, Or.inr (Or.inr rfl), rfl⟩))),
   UnmarshalWSMessage_malformed sampleEnv
      { Type_ := SyncRequestMsgType, Obj := some timeFractionText } timeFractionText _ rfl
      (Or.inr (Or.inr (Or.inr ⟨[("Time", .number "1.5")], "1.5", rfl, rfl, rfl, rfl⟩)))⟩

/-- On a `SyncRequest` whose payload is valid JSON but not an object, the
conversion of the payload to a map panics. -/
theorem UnmarshalWSMessage_SyncRequest_not_object {Node Edge : Type} (env : Env Node Edge)
    (msg : WSMessage) (raw : String) (obj : Value)
    (ht : msg.Type_ = SyncRequestMsgType) (hobj : msg.Obj = some raw)
    (hdec : env.JsonDecode raw = .ok obj) (hno : ∀ m, obj ≠ .obj m) :
    UnmarshalWSMessage env msg
      = .panicked "interface conversion: interface is not map[string]interface {}" := by
  cases obj with
  | obj m => exact absurd rfl (hno m)
  | _ => simp [UnmarshalWSMessage, hobj, hdec, ht]

/-- C6 fails on the code: on a `SyncRequest` whose payload is the JSON array
`[]`, valid JSON, `UnmarshalWSMessage` does not return, it panics in the
conversion of the decoded payload to a map. -/
theorem UnmarshalWSMessage_SyncRequest_array_panics :
    sampleEnv.JsonDecode emptyArrayText = .ok (.arr [])
    ∧ UnmarshalWSMessage sampleEnv { Type_ := SyncRequestMsgType, Obj := some emptyArrayText }
      = .panicked "interface conversion: interface is not map[string]interface {}" :=
  ⟨rfl, rfl⟩


/-! ## Properties of `requestFromQuery` -/

/-- C7: `requestFromQuery` returns an error if and only if the pagination range
is present and its `To` is below its `From`; the error is then "Incorrect
PaginationRange, To < From"; a query without pagination range and a query
whose range has `From <= To`, the empty range included, yield no error. -/
theorem requestFromQuery_error_iff {Flt : Type} (fsq : SearchQuery Flt) :
    ((requestFromQuery fsq).2 ≠ none ↔ ∃ r, fsq.PaginationRange = some r ∧ r.To < r.From)
    ∧ (∀ err, (requestFromQuery fsq).2 = some err →
        err = "Incorrect PaginationRange, To < From")
    ∧ (fsq.PaginationRange = none → (requestFromQuery fsq).2 = none)
    ∧ (∀ r, fsq.PaginationRange = some r → r.From ≤ r.To → (requestFromQuery fsq).2 = none) := by
  unfold requestFromQuery
  cases hp : fsq.PaginationRange with
  | none => simp
  | some r =>
    by_cases h : r.To < r.From
    · simp [h, not_le_of_lt h]
    · simp [h, not_lt.mp h]

/-- C7 on an inverted range, on the empty range and on a query without
pagination range. -/
theorem requestFromQuery_error_iff_witness :
    (requestFromQuery (pagedQuery { From := 30, To := 10 })).2 ≠ none
    ∧ (requestFromQuery (pagedQuery { From := 10, To := 10 })).2 = none
    ∧ (requestFromQuery plainQuery).2 = none :=
  ⟨(requestFromQuery_error_iff (pagedQuery { From := 30, To := 10 })).1.mpr
      ⟨{ From := 30, To := 10 }, rfl, by decide⟩,
   (requestFromQuery_error_iff (pagedQuery { From := 10, To := 10 })).2.2.2
      { From := 10, To := 10 } rfl (by decide),
   (requestFromQuery_error_iff plainQuery).2.2.1 rfl⟩

/-- The reduction to `int64` of an integer in the range of `int64` is the
integer. -/
theorem wrapInt64_of_isInt64 (i : Int) (h : isInt64 i) : wrapInt64 i = i := by
  unfold isInt64 minInt64 maxInt64 at h
  unfold wrapInt64
  omega

/-- C8: for a query with a pagination range of `int64` bounds `From <= To`,
the request has exactly the keys "size" and "from", "from" is `From` and
"size" is `To - From`, so that `from + size = To`, the difference and the sum
being those of `int64`; they are the difference and the sum of the integers
whenever `To - From` is in the range of `int64`, as it is when `From` is not
negative.  For a query without pagination range the request has the only key
"size", of value 10000.  No error is returned. -/
theorem requestFromQuery_window {Flt : Type} (fsq : SearchQuery Flt) :
    (∀ r, fsq.PaginationRange = some r → isInt64 r.From → isInt64 r.To → r.From ≤ r.To →
      ∃ size : Int,
        requestFromQuery fsq = ([("size", .int size), ("from", .int r.From)], none)
        ∧ mapGet (requestFromQuery fsq).1 "from" = some (.int r.From)
        ∧ mapGet (requestFromQuery fsq).1 "size" = some (.int size)
        ∧ (∀ key, key ∈ mapKeys (requestFromQuery fsq).1 ↔ key = "from" ∨ key = "size")
        ∧ size = subInt64 r.To r.From
        ∧ addInt64 r.From size = r.To
        ∧ (r.To - r.From ≤ maxInt64 → size = r.To - r.From ∧ r.From + size = r.To)
        ∧ (0 ≤ r.From → size = r.To - r.From ∧ r.From + size = r.To))
    ∧ (fsq.PaginationRange = none →
        requestFromQuery fsq = ([("size", .int 10000)], none)
        ∧ mapGet (requestFromQuery fsq).1 "size" = some (.int 10000)
        ∧ mapGet (requestFromQuery fsq).1 "from" = none
        ∧ (∀ key, key ∈ mapKeys (requestFromQuery fsq).1 ↔ key = "size")) := by
  constructor
  · intro r hp hF hT hle
    have hreq : requestFromQuery fsq
        = ([("size", .int (subInt64 r.To r.From)), ("from", .int r.From)], none) := by
      simp [requestFromQuery, hp, not_lt.mpr hle, mapSet]
    refine ⟨subInt64 r.To r.From, hreq, ?_, ?_, ?_, rfl, ?_, ?_, ?_⟩
    · rw [hreq]; simp [mapGet]
    · rw [hreq]; simp [mapGet]
    · intro key
      rw [hreq]
      simp [mapKeys]
      tauto
    · unfold isInt64 minInt64 maxInt64 at hF hT
      unfold addInt64 subInt64 wrapInt64
      omega
    · intro hfit
      unfold isInt64 minInt64 maxInt64 at hF hT
      unfold maxInt64 at hfit
      unfold subInt64 wrapInt64
      omega
    · intro hnn
      unfold isInt64 minInt64 maxInt64 at hF hT
      unfold subInt64 wrapInt64
      omega
  · intro hp
    have hreq : requestFromQuery fsq = ([("size", .int 10000)], none) := by
      simp [requestFromQuery, hp]
    refine ⟨hreq, ?_, ?_, ?_⟩
    · rw [hreq]; simp [mapGet]
    · rw [hreq]; simp [mapGet]
    · intro key
      rw [hreq]
      simp [mapKeys]

/-- C8 on the window from 10 to 30 and on a query without pagination range. -/
theorem requestFromQuery_window_witness :
    (∃ size : Int,
      requestFromQuery (pagedQuery { From := 10, To := 30 })
        = ([("size", .int size), ("from", .int 10)], none) ∧ size = 30 - 10 ∧ 10 + size = 30)
    ∧ requestFromQuery plainQuery = ([("size", .int 10000)], none) := by
  refine ⟨?_, ((requestFromQuery_window plainQuery).2 rfl).1⟩
  obtain ⟨size, h1, _, _, _, _, _, h7, _⟩ :=
    (requestFromQuery_window (pagedQuery { From := 10, To := 30 })).1
      { From := 10, To := 30 } rfl (by decide) (by decide) (by decide)
  exact ⟨size, h1, (h7 (by decide)).1, (h7 (by decide)).2⟩


/-! ## Go maps -/

/-- After `m[k] = v` the binding of `k` is `v` and the other bindings are unchanged. -/
theorem mapGet_mapSet {β : Type} (m : List (String × β)) (k k' : String) (v : β) :
    mapGet (mapSet m k v) k' = if k' = k then some v else mapGet m k' := by
  induction m with
  | nil =>
    by_cases h : k' = k
    · simp [mapSet, mapGet, h]
    · simp [mapSet, mapGet, h, Ne.symm h]
  | cons e rest ih =>
    obtain ⟨k0, v0⟩ := e
    by_cases h0 : k0 = k
    · subst h0
      by_cases h : k' = k0
      · simp [mapSet, mapGet, h]
      · simp [mapSet, mapGet, h, Ne.symm h]
    · by_cases h : k0 = k'
      · subst h
        simp [mapSet, mapGet, h0]
      · simp [mapSet, mapGet, h0, h, ih]

/-- After `m[k] = v` the keys are `k` and the keys of `m`. -/
theorem mem_mapKeys_mapSet {β : Type} (m : List (String × β)) (k k' : String) (v : β) :
    k' ∈ mapKeys (mapSet m k v) ↔ k' = k ∨ k' ∈ mapKeys m := by
  induction m with
  | nil => simp [mapSet, mapKeys]
  | cons e rest ih =>
    obtain ⟨k0, v0⟩ := e
    by_cases h0 : k0 = k
    · subst h0
      simp [mapSet, mapKeys]
    · have ih' : k' ∈ List.map Prod.fst (mapSet rest k v)
          ↔ k' = k ∨ k' ∈ List.map Prod.fst rest := ih
      simp only [mapSet, h0, mapKeys, if_false, List.map_cons, List.mem_cons, ih']
      tauto

/-- The assignment `m[k] = v` keeps the keys distinct. -/
theorem nodup_mapKeys_mapSet {β : Type} (m : List (String × β)) (k : String) (v : β)
    (h : (mapKeys m).Nodup) : (mapKeys (mapSet m k v)).Nodup := by
  induction m with
  | nil => simp [mapSet, mapKeys]
  | cons e rest ih =>
    obtain ⟨k0, v0⟩ := e
    have h' : k0 ∉ mapKeys rest ∧ (mapKeys rest).Nodup := by
      simpa [mapKeys] using h
    by_cases h0 : k0 = k
    · subst h0
      simpa [mapSet, mapKeys] using h
    · have hmem : k0 ∉ mapKeys (mapSet rest k v) := by
        rw [mem_mapKeys_mapSet]
        rintro (hk | hk)
        · exact h0 hk
        · exact h'.1 hk
      have hnd := ih h'.2
      simp only [mapSet, h0, if_false]
      show (k0 :: mapKeys (mapSet rest k v)).Nodup
      exact List.nodup_cons.mpr ⟨hmem, hnd⟩

/-- A key has no binding exactly when it is not a key of the map. -/
theorem mapGet_eq_none_iff {β : Type} (m : List (String × β)) (k : String) :
    mapGet m k = none ↔ k ∉ mapKeys m := by
  induction m with
  | nil => simp [mapGet, mapKeys]
  | cons e rest ih =>
    obtain ⟨k0, v0⟩ := e
    have ih' : mapGet rest k = none ↔ k ∉ List.map Prod.fst rest := ih
    by_cases h0 : k0 = k
    · simp [mapGet, mapKeys, h0]
    · simp only [mapGet, h0, if_false, mapKeys, List.map_cons, List.mem_cons, ih']
      have : ¬ k = k0 := fun h => h0 h.symm
      tauto

/-- Appending a record to the list of a key adds one record to the map. -/
theorem recordCount_mapSet (m : List (String × List TimedMetric)) (k : String)
    (t : TimedMetric) :
    recordCount (mapSet m k ((mapGet m k).getD [] ++ [t])) = recordCount m + 1 := by
  induction m with
  | nil => simp [mapSet, mapGet, recordCount]
  | cons e rest ih =>
    obtain ⟨k0, v0⟩ := e
    by_cases h0 : k0 = k
    · simp [mapSet, mapGet, recordCount, h0]
      omega
    · have ih' : (List.map (fun e => e.2.length)
          (mapSet rest k ((mapGet rest k).getD [] ++ [t]))).sum
          = (List.map (fun e => e.2.length) rest).sum + 1 := ih
      simp only [mapSet, mapGet, recordCount, h0, if_false, List.map_cons, List.sum_cons, ih']
      omega

/-! ## Properties of `SearchMetrics` -/

/-- A well-formed hit is decoded to its record, without error or panic. -/
theorem metricOfHit_of_decodesTo {Flow K : Type} (k : Codec Flow K) (d : Hit) (t : TimedMetric)
    (h : decodesTo k d t) : metricOfHit k d = .ret (.ok t) := by
  obtain ⟨src, obj, m, s, l, hsrc, hun, hdec, hs, hl, rfl⟩ := h
  simp [metricOfHit, hsrc, hun, hdec, hs, hl]

/-- The loop of `SearchMetrics` over well-formed hits, from the map `acc`: it
returns a map in which every list of `acc` is followed by the records of the
hits of that parent, in hit order. -/
theorem collectMetrics_spec {Flow K : Type} (k : Codec Flow K) (tm : Hit → TimedMetric)
    (hits : List Hit) :
    ∀ acc : List (String × List TimedMetric),
      (∀ d ∈ hits, decodesTo k d (tm d)) →
      ∃ final, collectMetrics k hits acc = .ret (some final, none)
        ∧ (∀ p, (mapGet final p).getD []
            = (mapGet acc p).getD [] ++ (hits.filter (fun d => d.Parent = p)).map tm)
        ∧ (∀ p, p ∈ mapKeys final ↔ p ∈ mapKeys acc ∨ ∃ d ∈ hits, d.Parent = p)
        ∧ ((mapKeys acc).Nodup → (mapKeys final).Nodup)
        ∧ recordCount final = recordCount acc + hits.length := by
  induction hits with
  | nil =>
    intro acc _
    exact ⟨acc, rfl, by simp, by simp, id, by simp⟩
  | cons d ds ih =>
    intro acc hall
    have hd : metricOfHit k d = .ret (.ok (tm d)) :=
      metricOfHit_of_decodesTo k d (tm d) (hall d (List.mem_cons_self d ds))
    obtain ⟨final, hrun, hget, hkeys, hnodup, hcount⟩ :=
      ih (mapSet acc d.Parent ((mapGet acc d.Parent).getD [] ++ [tm d]))
        (fun x hx => hall x (List.mem_cons_of_mem d hx))
    refine ⟨final, ?_, ?_, ?_, ?_, ?_⟩
    · simp [collectMetrics, hd, hrun]
    · intro p
      rw [hget p, mapGet_mapSet]
      by_cases hp : p = d.Parent
      · subst hp
        simp
      · have hp' : ¬ d.Parent = p := fun h => hp h.symm
        simp [hp, hp']
    · intro p
      rw [hkeys p, mem_mapKeys_mapSet]
      constructor
      · rintro ((h | h) | ⟨x, hx, hxp⟩)
        · exact Or.inr ⟨d, List.mem_cons_self d ds, h.symm⟩
        · exact Or.inl h
        · exact Or.inr ⟨x, List.mem_cons_of_mem d hx, hxp⟩
      · rintro (h | ⟨x, hx, hxp⟩)
        · exact Or.inl (Or.inr h)
        · rcases List.mem_cons.mp hx with rfl | hx
          · exact Or.inl (Or.inl hxp.symm)
          · exact Or.inr ⟨x, hx, hxp⟩
    · intro hnd
      exact hnodup (nodup_mapKeys_mapSet acc d.Parent _ hnd)
    · rw [hcount, recordCount_mapSet]
      simp
      omega

/-- C9: when the client is started, the request is built and sent and the
search succeeds with the hits `out.Hits`, every hit being well formed with
record `tm d`, `SearchMetrics` returns a map and no error; the keys of the map
are exactly the parent identities of the hits, each once; the list of a key is
the records of the hits of that parent, in hit order, one per hit; the map
holds as many records as there are hits, and it is the empty map, not the nil
map, when there is no hit. -/
theorem SearchMetrics_groups_by_parent {σ Flt Flow K : Type}
    (c : ElasticSearchClient σ Flt Flow) (k : Codec Flow K) (w : World σ Flt Flow)
    (fsq : SearchQuery Flt) (metricFilter : Option Flt) (request : List (String × Value))
    (q : String) (out : SearchResult) (s' : σ) (tm : Hit → TimedMetric)
    (hstarted : c.Started w.state = true)
    (hrequest : requestFromQuery fsq = (request, none))
    (hmarshal : k.Marshal (.obj (metricsRequest c fsq metricFilter request)) = .ok q)
    (hsearch : c.Search w.state "metric" q = ((out, none), s'))
    (hhits : ∀ d ∈ out.Hits, decodesTo k d (tm d)) :
    ∃ metrics : List (String × List TimedMetric),
      SearchMetrics c k w fsq metricFilter
        = (.ret (some metrics, none),
            { state := s',
              calls := w.calls ++ [.Started, .FormatFilter fsq.Filter "" false,
                .FormatFilter metricFilter "" false, .Search "metric" q] })
      ∧ (∀ p, p ∈ mapKeys metrics ↔ ∃ d ∈ out.Hits, d.Parent = p)
      ∧ (mapKeys metrics).Nodup
      ∧ (∀ p, p ∈ mapKeys metrics →
          mapGet metrics p = some ((out.Hits.filter (fun d => d.Parent = p)).map tm))
      ∧ (∀ p, p ∉ mapKeys metrics → mapGet metrics p = none)
      ∧ recordCount metrics = out.Hits.length
      ∧ (out.Hits = [] → metrics = []) := by
  obtain ⟨final, hrun, hget, hkeys, hnodup, hcount⟩ := collectMetrics_spec k tm out.Hits [] hhits
  have hres : SearchMetrics c k w fsq metricFilter
      = (.ret (some final, none),
          { state := s',
            calls := w.calls ++ [.Started, .FormatFilter fsq.Filter "" false,
              .FormatFilter metricFilter "" false, .Search "metric" q] }) := by
    simp only [SearchMetrics, World.record, hstarted, hrequest, sendRequest, hmarshal, hsearch]
    by_cases hlen : 0 < out.Hits.length
    · simp [hlen, hrun]
    · have hnil : out.Hits = [] := List.length_eq_zero.mp (by omega)
      rw [hnil] at hrun
      simp only [collectMetrics] at hrun
      injection hrun with hrun
      injection hrun with hrun _
      injection hrun with hrun
      simp [hnil, ← hrun]
  refine ⟨final, hres, ?_, ?_, ?_, ?_, ?_, ?_⟩
  · intro p
    simpa [mapKeys] using hkeys p
  · exact hnodup (by simp [mapKeys])
  · intro p hp
    have h1 := hget p
    cases hg : mapGet final p with
    | none => exact absurd hp ((mapGet_eq_none_iff final p).mp hg)
    | some l =>
      rw [hg] at h1
      simpa [mapGet] using h1
  · intro p hp
    exact (mapGet_eq_none_iff final p).mpr hp
  · simpa [recordCount] using hcount
  · intro hnil
    rw [hnil] at hrun
    simp only [collectMetrics] at hrun
    injection hrun with hrun
    injection hrun with hrun _
    injection hrun with hrun
    exact hrun.symm


/-- C9 on the search of the examples, whose hits are two metrics of the flow
`f1` around a metric of the flow `f2`: the two metrics of `f1` are its list, in
hit order. -/
theorem SearchMetrics_groups_by_parent_witness :
    ∃ metrics : List (String × List TimedMetric),
      SearchMetrics sampleClient sampleCodec { state := 0, calls := [] } plainQuery none
        = (.ret (some metrics, none),
            { state := 1,
              calls := [.Started, .FormatFilter none "" false, .FormatFilter none "" false,
                .Search "metric" "request"] })
      ∧ (∀ p, p ∈ mapKeys metrics ↔ ∃ d ∈ sampleMetricHits, d.Parent = p)
      ∧ mapGet metrics "f1"
        = some [{ Start := 1000, Last := 2000,
                  Metric := { ABPackets := 3, ABBytes := 252, BAPackets := 0, BABytes := 0 } },
                { Start := 2000, Last := 3000,
                  Metric := { ABPackets := 3, ABBytes := 252, BAPackets := 0, BABytes := 0 } }]
      ∧ recordCount metrics = 3 := by
  obtain ⟨metrics, h1, h2, _, h4, _, h6, _⟩ :=
    SearchMetrics_groups_by_parent sampleClient sampleCodec { state := 0, calls := [] }
      plainQuery none [("size", .int 10000)] "request" { Hits := sampleMetricHits } 1
      sampleRecord rfl rfl rfl rfl
      (by
        intro d hd
        simp only [sampleMetricHits, List.mem_cons, List.mem_singleton, List.not_mem_nil,
          or_false] at hd
        rcases hd with rfl | rfl | rfl
        · exact ⟨_, _, _, _, _, rfl, rfl, rfl, rfl, rfl, rfl⟩
        · exact ⟨_, _, _, _, _, rfl, rfl, rfl, rfl, rfl, rfl⟩
        · exact ⟨_, _, _, _, _, rfl, rfl, rfl, rfl, rfl, rfl⟩)
  have hf1 : "f1" ∈ mapKeys metrics :=
    (h2 "f1").mpr ⟨{ Parent := "f1", Source := some metricText1 }, by simp [sampleMetricHits], rfl⟩
  refine ⟨metrics, h1, h2, ?_, h6⟩
  rw [h4 "f1" hf1]
  rfl

/-! ## Properties of `Dedup` and `SearchFlows` -/

/-- The deduplicated list is a sub-sequence of the input. -/
theorem dedupFrom_sublist {α κ : Type} [DecidableEq κ] (key : α → κ) (l : List α) :
    ∀ seen : List κ, (dedupFrom key seen l).Sublist l := by
  induction l with
  | nil => intro seen; simp [dedupFrom]
  | cons a as ih =>
    intro seen
    by_cases h : key a ∈ seen
    · simp only [dedupFrom, h, if_true]
      exact List.Sublist.cons a (ih seen)
    · simp only [dedupFrom, h, if_false]
      exact List.Sublist.cons₂ a (ih (key a :: seen))

/-- No element kept by the deduplication has a key seen before. -/
theorem dedupFrom_keys_not_seen {α κ : Type} [DecidableEq κ] (key : α → κ) (l : List α) :
    ∀ seen : List κ, ∀ y ∈ dedupFrom key seen l, key y ∉ seen := by
  induction l with
  | nil => intro seen y hy; simp [dedupFrom] at hy
  | cons a as ih =>
    intro seen y hy
    by_cases h : key a ∈ seen
    · simp only [dedupFrom, h, if_true] at hy
      exact ih seen y hy
    · simp only [dedupFrom, h, if_false, List.mem_cons] at hy
      rcases hy with rfl | hy
      · exact h
      · intro hmem
        exact ih (key a :: seen) y hy (List.mem_cons_of_mem _ hmem)

/-- The elements kept by the deduplication have distinct keys. -/
theorem dedupFrom_keys_nodup {α κ : Type} [DecidableEq κ] (key : α → κ) (l : List α) :
    ∀ seen : List κ, ((dedupFrom key seen l).map key).Nodup := by
  induction l with
  | nil => intro seen; simp [dedupFrom]
  | cons a as ih =>
    intro seen
    by_cases h : key a ∈ seen
    · simp only [dedupFrom, h, if_true]
      exact ih seen
    · simp only [dedupFrom, h, if_false, List.map_cons]
      refine List.nodup_cons.mpr ⟨?_, ih (key a :: seen)⟩
      intro hmem
      obtain ⟨y, hy, hky⟩ := List.mem_map.mp hmem
      exact dedupFrom_keys_not_seen key as (key a :: seen) y hy (by simp [hky])

/-- The first element of every key value not seen before is kept by the deduplication. -/
theorem dedupFrom_first {α κ : Type} [DecidableEq κ] (key : α → κ) (l : List α) :
    ∀ seen : List κ, ∀ x ∈ l, key x ∉ seen →
      ∃ y, l.find? (fun z => decide (key z = key x)) = some y ∧ y ∈ dedupFrom key seen l := by
  induction l with
  | nil => intro seen x hx; simp at hx
  | cons a as ih =>
    intro seen x hx hns
    by_cases hk : key a = key x
    · refine ⟨a, by simp [List.find?, hk], ?_⟩
      have h : key a ∉ seen := by rw [hk]; exact hns
      simp [dedupFrom, h]
    · have hxa : x ∈ as := by
        rcases List.mem_cons.mp hx with rfl | h
        · exact absurd rfl hk
        · exact h
      by_cases h : key a ∈ seen
      · obtain ⟨y, hy1, hy2⟩ := ih seen x hxa hns
        exact ⟨y, by simp [List.find?, hk, hy1], by simp [dedupFrom, h, hy2]⟩
      · have hns' : key x ∉ key a :: seen := by
          simp only [List.mem_cons, not_or]
          exact ⟨fun e => hk e.symm, hns⟩
        obtain ⟨y, hy1, hy2⟩ := ih (key a :: seen) x hxa hns'
        exact ⟨y, by simp [List.find?, hk, hy1], by simp [dedupFrom, h, hy2]⟩

/-- Nothing is kept of a list whose keys all were seen before. -/
theorem dedupFrom_all_seen {α κ : Type} [DecidableEq κ] (key : α → κ) (l : List α) :
    ∀ seen : List κ, (∀ x ∈ l, key x ∈ seen) → dedupFrom key seen l = [] := by
  induction l with
  | nil => intro seen _; rfl
  | cons a as ih =>
    intro seen h
    have ha : key a ∈ seen := h a (List.mem_cons_self a as)
    simp only [dedupFrom, ha, if_true]
    exact ih seen (fun x hx => h x (List.mem_cons_of_mem a hx))

/-- A non-empty working set whose elements all are the node `c` is collapsed
to the single node `c`. -/
theorem DedupId_of_copies {N : Type} [DecidableEq N] (l : List N) (c : N)
    (hne : l ≠ []) (hall : ∀ x ∈ l, x = c) : DedupId l = [c] := by
  cases l with
  | nil => exact absurd rfl hne
  | cons a as =>
    have ha : a = c := hall a (List.mem_cons_self a as)
    subst ha
    have hrest : dedupFrom id [a] as = [] :=
      dedupFrom_all_seen id as [a] (fun x hx => by
        have := hall x (List.mem_cons_of_mem a hx)
        simp [this])
    simp [DedupId, Dedup, dedupFrom, hrest]

/-- The keys of a list of flows whose field can be read for every flow. -/
theorem flowKeys_of_getField {Flow K : Type} (k : Codec Flow K) (field : String)
    (key : Flow → K) (flows : List Flow)
    (h : ∀ f ∈ flows, k.GetField f field = .ok (key f)) :
    flowKeys k field flows = .ok (flows.map (fun f => (f, key f))) := by
  induction flows with
  | nil => rfl
  | cons f fs ih =>
    have hf := h f (List.mem_cons_self f fs)
    have hfs := ih (fun x hx => h x (List.mem_cons_of_mem f hx))
    simp [flowKeys, hf, hfs]

/-- Deduplicating flows paired with their keys is deduplicating the flows by the key. -/
theorem dedupFrom_keyed {Flow K : Type} [DecidableEq K] (key : Flow → K) (flows : List Flow) :
    ∀ seen : List K,
      (dedupFrom Prod.snd seen (flows.map (fun f => (f, key f)))).map Prod.fst
        = dedupFrom key seen flows := by
  induction flows with
  | nil => intro seen; rfl
  | cons f fs ih =>
    intro seen
    by_cases h : key f ∈ seen
    · simp [dedupFrom, h, ih seen]
    · simp [dedupFrom, h, ih (key f :: seen)]

/-- The deduplication of a flow set whose keys can all be read keeps the first
flow of every key value. -/
theorem FlowSetDedup_of_getField {Flow K : Type} [DecidableEq K] (k : Codec Flow K)
    (field : String) (key : Flow → K) (flows : List Flow)
    (h : ∀ f ∈ flows, k.GetField f field = .ok (key f)) :
    FlowSetDedup k field flows = .ok (Dedup key flows) := by
  simp [FlowSetDedup, flowKeys_of_getField k field key flows h, Dedup, dedupFrom_keyed]

/-- The first loop of `SearchFlows` over hits that decode appends their flows, in order. -/
theorem collectFlows_spec {Flow K : Type} (k : Codec Flow K) (fl : Hit → Flow)
    (hits : List Hit) :
    ∀ acc : List Flow,
      (∀ d ∈ hits, ∃ src, d.Source = some src ∧ k.UnmarshalFlow src = .ok (fl d)) →
      collectFlows k hits acc = .ret (.ok (acc ++ hits.map fl)) := by
  induction hits with
  | nil => intro acc _; simp [collectFlows]
  | cons d ds ih =>
    intro acc h
    obtain ⟨src, hsrc, hun⟩ := h d (List.mem_cons_self d ds)
    have hrest := ih (acc ++ [fl d]) (fun x hx => h x (List.mem_cons_of_mem d hx))
    simp [collectFlows, hsrc, hun, hrest]

/-- The flows `SearchFlows` collects from a successful search, before the
deduplication: one flow per hit, in hit order. -/
theorem SearchFlows_eq {σ Flt Flow K : Type} [DecidableEq K]
    (c : ElasticSearchClient σ Flt Flow) (k : Codec Flow K) (w : World σ Flt Flow)
    (fsq : SearchQuery Flt) (request : List (String × Value)) (q : String)
    (out : SearchResult) (s' : σ) (fl : Hit → Flow)
    (hstarted : c.Started w.state = true)
    (hrequest : requestFromQuery fsq = (request, none))
    (hmarshal : k.Marshal (.obj (flowsRequest c fsq request)) = .ok q)
    (hsearch : c.Search w.state "flow" q = ((out, none), s'))
    (hhits : ∀ d ∈ out.Hits, ∃ src, d.Source = some src ∧ k.UnmarshalFlow src = .ok (fl d)) :
    (SearchFlows c k w fsq).1 =
      if fsq.Dedup then
        match FlowSetDedup k fsq.DedupBy (out.Hits.map fl) with
        | .error err => .ret (none, some err)
        | .ok deduped => .ret (some deduped, none)
      else .ret (some (out.Hits.map fl), none) := by
  have hcol : (if 0 < out.Hits.length then collectFlows k out.Hits []
      else (.ret (.ok []) : Outcome (Except Error (List Flow))))
      = .ret (.ok (out.Hits.map fl)) := by
    by_cases hlen : 0 < out.Hits.length
    · simp [hlen, collectFlows_spec k fl out.Hits [] hhits]
    · have hnil : out.Hits = [] := List.length_eq_zero.mp (by omega)
      simp [hnil]
  cases hf : fsq.Filter with
  | none =>
    simp only [SearchFlows, World.record, hstarted, hrequest, sendRequest, hf] at *
    simp only [hmarshal, hsearch, hcol]
    cases fsq.Dedup with
    | false => simp
    | true =>
      cases FlowSetDedup k fsq.DedupBy (out.Hits.map fl) <;> simp
  | some f =>
    simp only [SearchFlows, World.record, hstarted, hrequest, sendRequest, hf] at *
    simp only [hmarshal, hsearch, hcol]
    cases fsq.Dedup with
    | false => simp
    | true =>
      cases FlowSetDedup k fsq.DedupBy (out.Hits.map fl) <;> simp

/-- C10: the deduplicated working set is a sub-sequence of the input, holds no
two elements of the same key value, and holds the first occurrence of every
key value of the input; a working set reached through parallel paths, whose
elements all are the same node, is collapsed to that one node, as in the
bridge example where the two links from `A` to `B` lead twice to `C`; and
`SearchFlows`, on a successful search whose hits decode to flows, returns the
flows of the hits in hit order when the `Dedup` flag of the query is not set,
and their deduplication by the field `DedupBy` (or its error) when it is
set. -/
theorem Dedup_first_seen_and_SearchFlows :
    (∀ (α κ : Type) [DecidableEq κ] (key : α → κ) (l : List α),
      (Dedup key l).Sublist l
      ∧ ((Dedup key l).map key).Nodup
      ∧ ∀ x ∈ l, ∃ y, l.find? (fun z => decide (key z = key x)) = some y ∧ y ∈ Dedup key l)
    ∧ (∀ (N : Type) [DecidableEq N] (l : List N) (c : N),
      l ≠ [] → (∀ x ∈ l, x = c) → DedupId l = [c])
    ∧ (Out bridgeEdges (Out bridgeEdges ["A"]) = ["C", "C"]
      ∧ DedupId (Out bridgeEdges (Out bridgeEdges ["A"])) = ["C"])
    ∧ (∀ (σ Flt Flow K : Type) [DecidableEq K] (c : ElasticSearchClient σ Flt Flow)
        (k : Codec Flow K) (w : World σ Flt Flow) (fsq : SearchQuery Flt)
        (request : List (String × Value)) (q : String) (out : SearchResult) (s' : σ)
        (fl : Hit → Flow),
      c.Started w.state = true →
      requestFromQuery fsq = (request, none) →
      k.Marshal (.obj (flowsRequest c fsq request)) = .ok q →
      c.Search w.state "flow" q = ((out, none), s') →
      (∀ d ∈ out.Hits, ∃ src, d.Source = some src ∧ k.UnmarshalFlow src = .ok (fl d)) →
      (fsq.Dedup = false →
        (SearchFlows c k w fsq).1 = .ret (some (out.Hits.map fl), none))
      ∧ (fsq.Dedup = true →
        (∀ key : Flow → K,
          (∀ f ∈ out.Hits.map fl, k.GetField f fsq.DedupBy = .ok (key f)) →
          (SearchFlows c k w fsq).1 = .ret (some (Dedup key (out.Hits.map fl)), none))
        ∧ (∀ err, FlowSetDedup k fsq.DedupBy (out.Hits.map fl) = .error err →
          (SearchFlows c k w fsq).1 = .ret (none, some err)))) := by
  refine ⟨?_, ?_, ⟨by decide, by decide⟩, ?_⟩
  · intro α κ _ key l
    exact ⟨dedupFrom_sublist key l [], dedupFrom_keys_nodup key l [],
      fun x hx => dedupFrom_first key l [] x hx (by simp)⟩
  · intro N _ l c hne hall
    exact DedupId_of_copies l c hne hall
  · intro σ Flt Flow K _ c k w fsq request q out s' fl hstarted hrequest hmarshal hsearch hhits
    have h := SearchFlows_eq c k w fsq request q out s' fl hstarted hrequest hmarshal hsearch
      hhits
    refine ⟨?_, ?_⟩
    · intro hd
      rw [h]; simp [hd]
    · intro hd
      refine ⟨?_, ?_⟩
      · intro key hkey
        rw [h, FlowSetDedup_of_getField k fsq.DedupBy key _ hkey]; simp [hd]
      · intro err herr
        rw [h, herr]; simp [hd]

/-- C10 on the search of the examples, whose flows `f1` and `f3` track the
same flow: without the `Dedup` flag the three flows are returned, with it the
flows `f1` and `f2`. -/
theorem Dedup_first_seen_and_SearchFlows_witness :
    (SearchFlows sampleClient sampleCodec { state := 0, calls := [] } plainQuery).1
      = .ret (some [{ UUID := "f1", TrackingID := "t1" }, { UUID := "f2", TrackingID := "t2" },
          { UUID := "f3", TrackingID := "t1" }], none)
    ∧ (SearchFlows sampleClient sampleCodec { state := 0, calls := [] } (dedupQuery "")).1
      = .ret (some [{ UUID := "f1", TrackingID := "t1" }, { UUID := "f2", TrackingID := "t2" }],
          none) := by
  have hhits : ∀ d ∈ sampleFlowHits,
      ∃ src, d.Source = some src ∧ sampleCodec.UnmarshalFlow src = .ok (sampleFlowOf d) := by
    intro d hd
    simp only [sampleFlowHits, List.mem_cons, List.mem_singleton, List.not_mem_nil,
      or_false] at hd
    rcases hd with rfl | rfl | rfl
    · exact ⟨_, rfl, rfl⟩
    · exact ⟨_, rfl, rfl⟩
    · exact ⟨_, rfl, rfl⟩
  constructor
  · exact (Dedup_first_seen_and_SearchFlows.2.2.2 Nat String SampleFlow String sampleClient
      sampleCodec { state := 0, calls := [] } plainQuery [("size", .int 10000)] "request"
      { Hits := sampleFlowHits } 1 sampleFlowOf rfl rfl rfl rfl hhits).1 rfl
  · exact ((Dedup_first_seen_and_SearchFlows.2.2.2 Nat String SampleFlow String sampleClient
      sampleCodec { state := 0, calls := [] } (dedupQuery "") [("size", .int 10000)] "request"
      { Hits := sampleFlowHits } 1 sampleFlowOf rfl rfl rfl rfl hhits).2 rfl).1
      (fun f => f.TrackingID) (by
        intro f hf
        simp only [sampleFlowHits, List.map_cons, List.map_nil, List.mem_cons,
          List.mem_singleton, List.not_mem_nil, or_false] at hf
        rcases hf with rfl | rfl | rfl <;> rfl)


/-! ## Properties of `StoreFlows` and of a client that is not started -/

/-- C12: while the client is not started, `StoreFlows` returns the error
"ElasticSearchStorage is not yet started", `SearchFlows` and `SearchMetrics`
return a nil result with that error, and each of them leaves the state of the
client as it is and adds to the calls of the client the only call `Started`:
no `Index`, `IndexChild`, `FormatFilter` or `Search` call is made. -/
theorem not_started_fails_without_request {σ Flt Flow K : Type} [DecidableEq K]
    (c : ElasticSearchClient σ Flt Flow) (v : FlowFields Flow) (k : Codec Flow K)
    (w : World σ Flt Flow) (flows : List Flow) (fsq : SearchQuery Flt)
    (metricFilter : Option Flt) (hstopped : c.Started w.state = false) :
    (StoreFlows c v w flows
        = (.ret (some "ElasticSearchStorage is not yet started"),
            { state := w.state, calls := w.calls ++ [.Started] })
      ∧ SearchFlows c k w fsq
        = (.ret (none, some "ElasticSearchStorage is not yet started"),
            { state := w.state, calls := w.calls ++ [.Started] })
      ∧ SearchMetrics c k w fsq metricFilter
        = (.ret (none, some "ElasticSearchStorage is not yet started"),
            { state := w.state, calls := w.calls ++ [.Started] }))
    ∧ (StoreFlows c v w flows).2.calls.filter Call.isRequest = w.calls.filter Call.isRequest
    ∧ (SearchFlows c k w fsq).2.calls.filter Call.isRequest = w.calls.filter Call.isRequest
    ∧ (SearchMetrics c k w fsq metricFilter).2.calls.filter Call.isRequest
        = w.calls.filter Call.isRequest := by
  have h1 : StoreFlows c v w flows
      = (.ret (some "ElasticSearchStorage is not yet started"),
          { state := w.state, calls := w.calls ++ [.Started] }) := by
    simp [StoreFlows, World.record, hstopped]
  have h2 : SearchFlows c k w fsq
      = (.ret (none, some "ElasticSearchStorage is not yet started"),
          { state := w.state, calls := w.calls ++ [.Started] }) := by
    simp [SearchFlows, World.record, hstopped]
  have h3 : SearchMetrics c k w fsq metricFilter
      = (.ret (none, some "ElasticSearchStorage is not yet started"),
          { state := w.state, calls := w.calls ++ [.Started] }) := by
    simp [SearchMetrics, World.record, hstopped]
  refine ⟨⟨h1, h2, h3⟩, ?_, ?_, ?_⟩
  · rw [h1]; simp [Call.isRequest]
  · rw [h2]; simp [Call.isRequest]
  · rw [h3]; simp [Call.isRequest]

/-- C12 on the client of the examples that is not started. -/
theorem not_started_fails_without_request_witness :
    StoreFlows stoppedClient storedFlowFields { state := 0, calls := [] } storedFlows
      = (.ret (some "ElasticSearchStorage is not yet started"),
          { state := 0, calls := [.Started] })
    ∧ SearchFlows stoppedClient storedCodec { state := 0, calls := [] } plainQuery
      = (.ret (none, some "ElasticSearchStorage is not yet started"),
          { state := 0, calls := [.Started] })
    ∧ SearchMetrics stoppedClient storedCodec { state := 0, calls := [] } plainQuery none
      = (.ret (none, some "ElasticSearchStorage is not yet started"),
          { state := 0, calls := [.Started] }) :=
  (not_started_fails_without_request stoppedClient storedFlowFields storedCodec
    { state := 0, calls := [] } storedFlows plainQuery none rfl).1

/-- The loop of `StoreFlows` over a list of flows followed by another is the
loop over the first list followed by the loop over the second. -/
theorem storeLoop_append {σ Flt Flow : Type} (c : ElasticSearchClient σ Flt Flow)
    (v : FlowFields Flow) (l₁ l₂ : List Flow) :
    ∀ w : World σ Flt Flow, storeLoop c v w (l₁ ++ l₂) = storeLoop c v (storeLoop c v w l₁) l₂ := by
  induction l₁ with
  | nil => intro w; rfl
  | cons f fs ih =>
    intro w
    simp only [List.cons_append, storeLoop]
    split
    · exact ih _
    · split
      · exact ih _
      · exact ih _

/-- The `Index` calls of the loop of `StoreFlows` are one call per flow, in
the order of the list, with the UUID of the flow as identity. -/
theorem storeLoop_index_calls {σ Flt Flow : Type} (c : ElasticSearchClient σ Flt Flow)
    (v : FlowFields Flow) (flows : List Flow) :
    ∀ w : World σ Flt Flow,
      (storeLoop c v w flows).calls.filter Call.isIndex
        = w.calls.filter Call.isIndex ++ flows.map (fun f => .Index "flow" (v.UUID f) f) := by
  induction flows with
  | nil => intro w; simp [storeLoop]
  | cons f fs ih =>
    intro w
    simp only [storeLoop]
    split
    · rw [ih]; simp [Call.isIndex]
    · split
      · rw [ih]; simp [Call.isIndex]
      · rw [ih]; simp [Call.isIndex]

/-- The `IndexChild` calls of the loop of `StoreFlows`, after those made
before, are calls for the flows of the list, in the order of the list, each
under the type "metric" with the UUID of the flow as parent. -/
theorem storeLoop_child_calls {σ Flt Flow : Type} (c : ElasticSearchClient σ Flt Flow)
    (v : FlowFields Flow) (flows : List Flow) :
    ∀ w : World σ Flt Flow, ∃ children : List Flow,
      children.Sublist flows
      ∧ (∀ f ∈ children, v.LastUpdateStart f ≠ 0)
      ∧ (storeLoop c v w flows).calls.filter Call.isIndexChild
        = w.calls.filter Call.isIndexChild
          ++ children.map (fun f => .IndexChild "metric" (v.UUID f) "" (metricDocument v f)) := by
  induction flows with
  | nil => intro w; exact ⟨[], List.Sublist.slnil, by simp, by simp [storeLoop]⟩
  | cons f fs ih =>
    intro w
    simp only [storeLoop]
    split
    · obtain ⟨ch, hsub, hstart, hcalls⟩ := ih
        { state := (c.Index w.state "flow" (v.UUID f) f).2,
          calls := w.calls ++ [.Index "flow" (v.UUID f) f] }
      exact ⟨ch, List.Sublist.cons f hsub, hstart, by rw [hcalls]; simp [Call.isIndexChild]⟩
    · split
      · rename_i hne
        obtain ⟨ch, hsub, hstart, hcalls⟩ := ih
          { state := (c.IndexChild (c.Index w.state "flow" (v.UUID f) f).2 "metric" (v.UUID f) ""
              (metricDocument v f)).2,
            calls := (w.calls ++ [.Index "flow" (v.UUID f) f])
              ++ [.IndexChild "metric" (v.UUID f) "" (metricDocument v f)] }
        refine ⟨f :: ch, List.Sublist.cons₂ f hsub, ?_, ?_⟩
        · intro x hx
          rcases List.mem_cons.mp hx with rfl | hx
          · exact hne
          · exact hstart x hx
        · rw [hcalls]; simp [Call.isIndexChild]
      · obtain ⟨ch, hsub, hstart, hcalls⟩ := ih
          { state := (c.Index w.state "flow" (v.UUID f) f).2,
            calls := w.calls ++ [.Index "flow" (v.UUID f) f] }
        exact ⟨ch, List.Sublist.cons f hsub, hstart, by rw [hcalls]; simp [Call.isIndexChild]⟩

/-- C13: on a started client `StoreFlows` returns nil for every list of flows
and every behaviour of the client.  Its `Index` calls are one call per flow,
in list order, under the type "flow" and the UUID of the flow, whatever
failed before; its `IndexChild` calls are calls for flows of the list whose
`LastUpdateStart` is not 0, in list order.  For a flow `f` reached after the
flows `pre`, the calls made
for `f` are its `Index` call followed by at most one `IndexChild` call; that
call is made if and only if the `Index` call of `f` returned no error and
`LastUpdateStart` is not 0, and it is made under the type "metric", with the
UUID of `f` as parent and a document carrying `ABBytes`, `BABytes`,
`ABPackets`, `BAPackets` of `LastUpdateMetric`, `Start = LastUpdateStart` and
`Last = LastUpdateLast`; the loop then goes on with the flows after `f`. -/
theorem StoreFlows_best_effort {σ Flt Flow : Type} (c : ElasticSearchClient σ Flt Flow)
    (v : FlowFields Flow) (w : World σ Flt Flow) (flows : List Flow)
    (hstarted : c.Started w.state = true) :
    (StoreFlows c v w flows).1 = .ret none
    ∧ (StoreFlows c v w flows).2.calls.filter Call.isIndex
        = w.calls.filter Call.isIndex ++ flows.map (fun f => .Index "flow" (v.UUID f) f)
    ∧ (∃ children : List Flow,
        children.Sublist flows
        ∧ (∀ f ∈ children, v.LastUpdateStart f ≠ 0)
        ∧ (StoreFlows c v w flows).2.calls.filter Call.isIndexChild
          = w.calls.filter Call.isIndexChild
            ++ children.map (fun f => .IndexChild "metric" (v.UUID f) "" (metricDocument v f)))
    ∧ ∀ (pre : List Flow) (f : Flow) (post : List Flow), flows = pre ++ f :: post →
        ∃ childCalls : List (Call Flt Flow),
          (StoreFlows c v w (pre ++ [f])).2.calls
            = (StoreFlows c v w pre).2.calls ++ .Index "flow" (v.UUID f) f :: childCalls
          ∧ (childCalls = [] ∨ childCalls =
              [.IndexChild "metric" (v.UUID f) ""
                (.obj [("ABBytes", .int (v.LastUpdateMetric f).ABBytes),
                  ("BABytes", .int (v.LastUpdateMetric f).BABytes),
                  ("ABPackets", .int (v.LastUpdateMetric f).ABPackets),
                  ("BAPackets", .int (v.LastUpdateMetric f).BAPackets),
                  ("Start", .int (v.LastUpdateStart f)),
                  ("Last", .int (v.LastUpdateLast f))])])
          ∧ (childCalls ≠ [] ↔
              (c.Index (StoreFlows c v w pre).2.state "flow" (v.UUID f) f).1 = none
                ∧ v.LastUpdateStart f ≠ 0)
          ∧ (StoreFlows c v w flows).2 = storeLoop c v (StoreFlows c v w (pre ++ [f])).2 post := by
  have hrun : ∀ l : List Flow,
      StoreFlows c v w l = (.ret none, storeLoop c v (w.record .Started) l) := by
    intro l
    simp [StoreFlows, World.record, hstarted]
  refine ⟨by rw [hrun], ?_, ?_, ?_⟩
  · rw [hrun, storeLoop_index_calls]
    simp [World.record, Call.isIndex]
  · obtain ⟨children, hsub, hstart, hcalls⟩ :=
      storeLoop_child_calls c v flows (w.record .Started)
    refine ⟨children, hsub, hstart, ?_⟩
    rw [hrun, hcalls]
    simp [World.record, Call.isIndexChild]
  · intro pre f post hflows
    have hpre : (StoreFlows c v w (pre ++ [f])).2
        = storeLoop c v (StoreFlows c v w pre).2 [f] := by
      rw [hrun, hrun, storeLoop_append]
    have hall : (StoreFlows c v w flows).2
        = storeLoop c v (StoreFlows c v w (pre ++ [f])).2 post := by
      rw [hflows, hrun, hrun]
      have : pre ++ f :: post = (pre ++ [f]) ++ post := by simp
      rw [this, storeLoop_append]
    rw [hpre] at hall ⊢
    generalize (StoreFlows c v w pre).2 = w₁ at *
    cases hidx : (c.Index w₁.state "flow" (v.UUID f) f).1 with
    | some err =>
      refine ⟨[], ?_, Or.inl rfl, ?_, hall⟩
      · simp [storeLoop, hidx]
      · simp
    | none =>
      by_cases hstart : v.LastUpdateStart f = 0
      · refine ⟨[], ?_, Or.inl rfl, ?_, hall⟩
        · simp [storeLoop, hidx, hstart]
        · simp [hstart]
      · refine ⟨[.IndexChild "metric" (v.UUID f) "" (metricDocument v f)], ?_, Or.inr rfl, ?_,
          hall⟩
        · simp [storeLoop, hidx, hstart]
        · simp [hstart]

/-- C13 on the client and the flows of the examples: the flow `bad` is
refused, the flow `f3` has no update, the metric of the flow `f4` is refused;
every flow is indexed, and the metrics of `f1`, `f4` and `f5` are. -/
theorem StoreFlows_best_effort_witness :
    (StoreFlows storeClient storedFlowFields { state := 0, calls := [] } storedFlows).1
      = .ret none
    ∧ (StoreFlows storeClient storedFlowFields { state := 0, calls := [] } storedFlows).2.calls
      = [.Started,
         .Index "flow" "f1" (updatedFlow "f1"), .IndexChild "metric" "f1" "" updatedDocument,
         .Index "flow" "bad" (updatedFlow "bad"),
         .Index "flow" "f3" (freshFlow "f3"),
         .Index "flow" "f4" (updatedFlow "f4"), .IndexChild "metric" "f4" "" updatedDocument,
         .Index "flow" "f5" (updatedFlow "f5"), .IndexChild "metric" "f5" "" updatedDocument]
    ∧ (StoreFlows storeClient storedFlowFields { state := 0, calls := [] } storedFlows).2.calls.filter
        Call.isIndex
      = storedFlows.map (fun f => .Index "flow" f.UUID f) :=
  ⟨(StoreFlows_best_effort storeClient storedFlowFields { state := 0, calls := [] } storedFlows
      rfl).1,
   rfl,
   (StoreFlows_best_effort storeClient storedFlowFields { state := 0, calls := [] } storedFlows
      rfl).2.1⟩

/-! ## Properties of `Aggregates` -/

/-- The counters of the sum of a series of records, added one after the other
to the metric `acc`, are the counters of `acc` plus the sums of the counters
of the records. -/
theorem foldl_add_counters (records : List TimedMetric) :
    ∀ acc : FlowMetric,
      (records.foldl (fun acc r => acc.add r.Metric) acc).ABPackets
          = acc.ABPackets + (records.map (fun r => r.Metric.ABPackets)).sum
      ∧ (records.foldl (fun acc r => acc.add r.Metric) acc).ABBytes
          = acc.ABBytes + (records.map (fun r => r.Metric.ABBytes)).sum
      ∧ (records.foldl (fun acc r => acc.add r.Metric) acc).BAPackets
          = acc.BAPackets + (records.map (fun r => r.Metric.BAPackets)).sum
      ∧ (records.foldl (fun acc r => acc.add r.Metric) acc).BABytes
          = acc.BABytes + (records.map (fun r => r.Metric.BABytes)).sum := by
  induction records with
  | nil => intro acc; simp
  | cons r rs ih =>
    intro acc
    obtain ⟨h1, h2, h3, h4⟩ := ih (acc.add r.Metric)
    simp only [List.foldl_cons, List.map_cons, List.sum_cons]
    rw [h1, h2, h3, h4]
    simp only [FlowMetric.add]
    refine ⟨?_, ?_, ?_, ?_⟩ <;> omega

/-- The counters of the summed record of a series are the sums of the counters
of its records. -/
theorem aggregate_counters (window : TimeSlice) (records : List TimedMetric) :
    (aggregate window records).Metric.ABPackets = (records.map (fun r => r.Metric.ABPackets)).sum
    ∧ (aggregate window records).Metric.ABBytes = (records.map (fun r => r.Metric.ABBytes)).sum
    ∧ (aggregate window records).Metric.BAPackets
        = (records.map (fun r => r.Metric.BAPackets)).sum
    ∧ (aggregate window records).Metric.BABytes
        = (records.map (fun r => r.Metric.BABytes)).sum := by
  obtain ⟨h1, h2, h3, h4⟩ := foldl_add_counters records FlowMetric.zero
  simp only [aggregate]
  rw [h1, h2, h3, h4]
  simp [FlowMetric.zero]

/-- The record `Aggregates()` holds for a node is the summed record of the
series of the node, and a node without series has no record. -/
theorem mapGet_Aggregates (window : TimeSlice) (metrics : List (String × List TimedMetric))
    (node : String) :
    mapGet (Aggregates window metrics) node = (mapGet metrics node).map (aggregate window) := by
  induction metrics with
  | nil => simp [Aggregates, mapGet]
  | cons e rest ih =>
    obtain ⟨n, records⟩ := e
    have ih' : mapGet (List.map (fun e => (e.1, aggregate window e.2)) rest) node
        = (mapGet rest node).map (aggregate window) := ih
    by_cases h : n = node
    · simp [Aggregates, mapGet, h]
    · simp [Aggregates, mapGet, h, ih']

/-- The map `SearchMetrics` returns on a successful search whose hits are well
formed: the list of every parent of a hit is the records of the hits of that
parent, in hit order. -/
theorem SearchMetrics_series {σ Flt Flow K : Type}
    (c : ElasticSearchClient σ Flt Flow) (k : Codec Flow K) (w : World σ Flt Flow)
    (fsq : SearchQuery Flt) (metricFilter : Option Flt) (request : List (String × Value))
    (q : String) (out : SearchResult) (s' : σ) (tm : Hit → TimedMetric)
    (hstarted : c.Started w.state = true)
    (hrequest : requestFromQuery fsq = (request, none))
    (hmarshal : k.Marshal (.obj (metricsRequest c fsq metricFilter request)) = .ok q)
    (hsearch : c.Search w.state "metric" q = ((out, none), s'))
    (hhits : ∀ d ∈ out.Hits, decodesTo k d (tm d)) :
    ∃ metrics : List (String × List TimedMetric),
      (SearchMetrics c k w fsq metricFilter).1 = .ret (some metrics, none)
      ∧ (mapKeys metrics).Nodup
      ∧ (∀ p, p ∈ mapKeys metrics ↔ ∃ d ∈ out.Hits, d.Parent = p)
      ∧ ∀ p, (∃ d ∈ out.Hits, d.Parent = p) →
          mapGet metrics p = some ((out.Hits.filter (fun d => d.Parent = p)).map tm) := by
  obtain ⟨final, hrun, hget, hkeys, hnodup, _⟩ := collectMetrics_spec k tm out.Hits [] hhits
  have hkeys' : ∀ p, p ∈ mapKeys final ↔ ∃ d ∈ out.Hits, d.Parent = p := by
    intro p
    simpa [mapKeys] using hkeys p
  refine ⟨final, ?_, hnodup (by simp [mapKeys]), hkeys', ?_⟩
  · simp only [SearchMetrics, World.record, hstarted, hrequest, sendRequest, hmarshal, hsearch]
    by_cases hlen : 0 < out.Hits.length
    · simp [hlen, hrun]
    · have hnil : out.Hits = [] := List.length_eq_zero.mp (by omega)
      rw [hnil] at hrun
      simp only [collectMetrics] at hrun
      injection hrun with hrun
      injection hrun with hrun _
      injection hrun with hrun
      simp [hnil, ← hrun]
  · intro p hp
    have h1 := hget p
    cases hg : mapGet final p with
    | none => exact absurd ((hkeys' p).mpr hp) ((mapGet_eq_none_iff final p).mp hg)
    | some l =>
      rw [hg] at h1
      simpa [mapGet] using h1

/-- C11: `Aggregates()` holds one record per node of the series attached by
`Metrics()`, for the same nodes in the same order; for a node with a non-empty
series the record has as packet and byte counters the sums of the counters of
the records of the series, over the active time window; two records of packet
count 3 and 3 give the packet count 6; and on the series `SearchMetrics`
returns for a successful search, the record of a parent sums the counters of
the hits of that parent. -/
theorem Aggregates_sums_per_node :
    (∀ (window : TimeSlice) (metrics : List (String × List TimedMetric)),
      mapKeys (Aggregates window metrics) = mapKeys metrics
      ∧ ((mapKeys metrics).Nodup → (mapKeys (Aggregates window metrics)).Nodup)
      ∧ ∀ (node : String) (records : List TimedMetric),
          mapGet metrics node = some records → records ≠ [] →
          ∃ r : TimedMetric, mapGet (Aggregates window metrics) node = some r
            ∧ r.Metric.ABPackets = (records.map (fun t => t.Metric.ABPackets)).sum
            ∧ r.Metric.ABBytes = (records.map (fun t => t.Metric.ABBytes)).sum
            ∧ r.Metric.BAPackets = (records.map (fun t => t.Metric.BAPackets)).sum
            ∧ r.Metric.BABytes = (records.map (fun t => t.Metric.BABytes)).sum
            ∧ r.Start = window.Start ∧ r.Last = window.Last)
    ∧ (∀ (window : TimeSlice) (node : String) (r₁ r₂ : TimedMetric),
        r₁.Metric.ABPackets = 3 → r₂.Metric.ABPackets = 3 →
        ∃ r : TimedMetric, Aggregates window [(node, [r₁, r₂])] = [(node, r)]
          ∧ r.Metric.ABPackets = 6)
    ∧ (∀ (σ Flt Flow K : Type) (c : ElasticSearchClient σ Flt Flow) (k : Codec Flow K)
        (w : World σ Flt Flow) (fsq : SearchQuery Flt) (metricFilter : Option Flt)
        (request : List (String × Value)) (q : String) (out : SearchResult) (s' : σ)
        (tm : Hit → TimedMetric) (window : TimeSlice),
      c.Started w.state = true →
      requestFromQuery fsq = (request, none) →
      k.Marshal (.obj (metricsRequest c fsq metricFilter request)) = .ok q →
      c.Search w.state "metric" q = ((out, none), s') →
      (∀ d ∈ out.Hits, decodesTo k d (tm d)) →
      ∃ metrics : List (String × List TimedMetric),
        (SearchMetrics c k w fsq metricFilter).1 = .ret (some metrics, none)
        ∧ (mapKeys (Aggregates window metrics)).Nodup
        ∧ (∀ p, p ∈ mapKeys (Aggregates window metrics) ↔ ∃ d ∈ out.Hits, d.Parent = p)
        ∧ ∀ p, (∃ d ∈ out.Hits, d.Parent = p) →
            ∃ r : TimedMetric, mapGet (Aggregates window metrics) p = some r
              ∧ r.Metric.ABPackets
                = ((out.Hits.filter (fun d => d.Parent = p)).map
                    (fun d => (tm d).Metric.ABPackets)).sum
              ∧ r.Metric.ABBytes
                = ((out.Hits.filter (fun d => d.Parent = p)).map
                    (fun d => (tm d).Metric.ABBytes)).sum
              ∧ r.Metric.BAPackets
                = ((out.Hits.filter (fun d => d.Parent = p)).map
                    (fun d => (tm d).Metric.BAPackets)).sum
              ∧ r.Metric.BABytes
                = ((out.Hits.filter (fun d => d.Parent = p)).map
                    (fun d => (tm d).Metric.BABytes)).sum) := by
  have hkeys : ∀ (window : TimeSlice) (metrics : List (String × List TimedMetric)),
      mapKeys (Aggregates window metrics) = mapKeys metrics := by
    intro window metrics
    simp [Aggregates, mapKeys, List.map_map, Function.comp_def]
  refine ⟨?_, ?_, ?_⟩
  · intro window metrics
    refine ⟨hkeys window metrics, fun h => by rw [hkeys]; exact h, ?_⟩
    intro node records hget _
    obtain ⟨h1, h2, h3, h4⟩ := aggregate_counters window records
    exact ⟨aggregate window records, by rw [mapGet_Aggregates, hget]; rfl,
      h1, h2, h3, h4, rfl, rfl⟩
  · intro window node r₁ r₂ h₁ h₂
    refine ⟨aggregate window [r₁, r₂], rfl, ?_⟩
    rw [(aggregate_counters window [r₁, r₂]).1]
    simp [h₁, h₂]
  · intro σ Flt Flow K c k w fsq metricFilter request q out s' tm window hstarted hrequest
      hmarshal hsearch hhits
    obtain ⟨metrics, hres, hnodup, hmem, hget⟩ :=
      SearchMetrics_series c k w fsq metricFilter request q out s' tm hstarted hrequest
        hmarshal hsearch hhits
    refine ⟨metrics, hres, by rw [hkeys]; exact hnodup, fun p => by rw [hkeys]; exact hmem p, ?_⟩
    intro p hp
    obtain ⟨h1, h2, h3, h4⟩ :=
      aggregate_counters window ((out.Hits.filter (fun d => d.Parent = p)).map tm)
    refine ⟨aggregate window ((out.Hits.filter (fun d => d.Parent = p)).map tm),
      by rw [mapGet_Aggregates, hget p hp]; rfl, ?_, ?_, ?_, ?_⟩
    · rw [h1, List.map_map]; rfl
    · rw [h2, List.map_map]; rfl
    · rw [h3, List.map_map]; rfl
    · rw [h4, List.map_map]; rfl

/-- C11 on the search of the examples, whose hits hold two metrics of 3
packets of the flow `f1`: the aggregated record of `f1` counts 6 packets. -/
theorem Aggregates_sums_per_node_witness :
    ∃ metrics : List (String × List TimedMetric),
      (SearchMetrics sampleClient sampleCodec { state := 0, calls := [] } plainQuery none).1
        = .ret (some metrics, none)
      ∧ ∃ r : TimedMetric,
          mapGet (Aggregates { Start := 0, Last := 5000 } metrics) "f1" = some r
          ∧ r.Metric.ABPackets = 6 := by
  obtain ⟨metrics, h1, _, _, h4⟩ :=
    Aggregates_sums_per_node.2.2 Nat String SampleFlow String sampleClient sampleCodec
      { state := 0, calls := [] } plainQuery none [("size", .int 10000)] "request"
      { Hits := sampleMetricHits } 1 sampleRecord { Start := 0, Last := 5000 }
      rfl rfl rfl rfl
      (by
        intro d hd
        simp only [sampleMetricHits, List.mem_cons, List.mem_singleton, List.not_mem_nil,
          or_false] at hd
        rcases hd with rfl | rfl | rfl
        · exact ⟨_, _, _, _, _, rfl, rfl, rfl, rfl, rfl, rfl⟩
        · exact ⟨_, _, _, _, _, rfl, rfl, rfl, rfl, rfl, rfl⟩
        · exact ⟨_, _, _, _, _, rfl, rfl, rfl, rfl, rfl, rfl⟩)
  obtain ⟨r, hr, hp, _⟩ := h4 "f1"
    ⟨{ Parent := "f1", Source := some metricText1 }, by simp [sampleMetricHits], rfl⟩
  exact ⟨metrics, h1, r, hr, by rw [hp]; rfl⟩

end Skydive
